import Mathlib

/-!
# Event repository of the Postgres store (`database/postgres/event.go`)

A shallow embedding of the event repository: the SQL text it renders for the
paged listing and for the count, the trimming of a fetched page, and the
call sequence the two association writers issue on their transaction.

Text is kept as `String`; the two library text operations the code uses
(`strings.Replace` with a count of one and `fmt.Sprintf` with `%s` verbs) are
given on character lists.  The database is a parameter (the statements a call
sends and the answers it gets), and a small reading of the paged statement by
an engine is supplied for the properties that speak about returned rows.
-/

namespace Convoy

/-! ## Statement text -/

/-- The partition size of the association writers (`PartitionSize`). -/
def PartitionSize : Nat := 30000

def createEvent : String :=
  "\n\tINSERT INTO convoy.events (id,event_type,endpoints,project_id,\n\t                           source_id,headers,raw,data,url_query_params,\n\t                           idempotency_key,is_duplicate_event,acknowledged_at,metadata,status)\n\tVALUES ($1, $2, $3, $4, $5, $6, $7, $8, $9, $10, $11, $12, $13, $14)\n\t"

def updateEventEndpoints : String :=
  "\n\tUPDATE convoy.events SET endpoints=$1 WHERE project_id= $2 AND id=$3\n\t"

def createEventEndpoints : String :=
  "\n\tINSERT INTO convoy.events_endpoints (endpoint_id, event_id) VALUES (:endpoint_id, :event_id)\n\tON CONFLICT (endpoint_id, event_id) DO NOTHING\n\t"

def countEvents : String :=
  "\n\tSELECT COUNT(DISTINCT(ev.id)) FROM convoy.events ev\n\tLEFT JOIN convoy.events_endpoints ee ON ee.event_id = ev.id\n\tLEFT JOIN convoy.endpoints e ON ee.endpoint_id = e.id\n\tWHERE ev.project_id = :project_id\n\tAND ev.created_at >= :start_date AND ev.created_at <= :end_date AND ev.deleted_at IS NULL;\n\t"

def baseEventsPaged : String :=
  "\n\tSELECT ev.id, ev.project_id,\n\tev.id AS event_type, ev.is_duplicate_event,\n\tCOALESCE(ev.source_id, '') AS source_id,\n\tev.headers, ev.raw, ev.data, ev.created_at,\n\tCOALESCE(idempotency_key, '') AS idempotency_key,\n\tCOALESCE(url_query_params, '') AS url_query_params,\n\tev.updated_at, ev.deleted_at,ev.acknowledged_at,\n\tCOALESCE(s.id, '') AS \"source_metadata.id\",\n\tCOALESCE(s.name, '') AS \"source_metadata.name\"\n    FROM convoy.events ev\n\tLEFT JOIN convoy.events_endpoints ee ON ee.event_id = ev.id\n\tLEFT JOIN convoy.endpoints e ON e.id = ee.endpoint_id\n\tLEFT JOIN convoy.sources s ON s.id = ev.source_id\n    WHERE ev.deleted_at IS NULL"

def baseEventsSearch : String :=
  "\n\tSELECT ev.id, ev.project_id,\n\tev.id AS event_type, ev.is_duplicate_event,\n\tCOALESCE(ev.source_id, '') AS source_id,\n\tev.headers, ev.raw, ev.data, ev.created_at,\n\tCOALESCE(idempotency_key, '') AS idempotency_key,\n\tCOALESCE(url_query_params, '') AS url_query_params,\n\tev.updated_at, ev.deleted_at,\n\tCOALESCE(s.id, '') AS \"source_metadata.id\",\n\tCOALESCE(s.name, '') AS \"source_metadata.name\"\n    FROM convoy.events_search ev\n\tLEFT JOIN convoy.events_endpoints ee ON ee.event_id = ev.id\n\tLEFT JOIN convoy.endpoints e ON e.id = ee.endpoint_id\n\tLEFT JOIN convoy.sources s ON s.id = ev.source_id\n    WHERE ev.deleted_at IS NULL"

def baseEventsPagedForward : String :=
  "\n\tWITH events AS (\n        %s %s AND ev.id <= :cursor\n\t    ORDER BY ev.id %s\n\t    LIMIT :limit\n\t)\n\n\tSELECT * FROM events ORDER BY id %s\n\t"

def baseEventsPagedBackward : String :=
  "\n\tWITH events AS (\n        %s %s AND ev.id >= :cursor\n\t\tORDER BY ev.id %s\n\t\tLIMIT :limit\n\t)\n\n\tSELECT * FROM events ORDER BY id %s\n\t"

def baseEventFilter : String :=
  " AND ev.project_id = :project_id\n\tAND (ev.idempotency_key = :idempotency_key OR :idempotency_key = '')\n\tAND ev.created_at >= :start_date\n\tAND ev.created_at <= :end_date"

def endpointFilter : String :=
  " AND ee.endpoint_id IN (:endpoint_ids) "

def sourceFilter : String :=
  " AND ev.source_id IN (:source_ids) "

def searchFilter : String :=
  " AND search_token @@ websearch_to_tsquery('simple',:query) "

def baseCountPrevEvents : String :=
  "\n\tselect exists(\n\t\tSELECT 1\n\t\tFROM convoy.events ev\n\t\tLEFT JOIN convoy.events_endpoints ee ON ev.id = ee.event_id\n\t\tWHERE ev.deleted_at IS NULL\n\t"

def baseCountPrevEventSearch : String :=
  "\n\tselect exists(\n\t\tSELECT 1\n\t\tFROM convoy.events_search ev\n\t\tLEFT JOIN convoy.events_endpoints ee ON ev.id = ee.event_id\n\t\tWHERE ev.deleted_at IS NULL\n\t"

def countPrevEvents : String :=
  " AND ev.id > :cursor GROUP BY ev.id ORDER BY ev.id %s LIMIT 1"

/-! ## Library text operations -/

/-- Whether `pat` occurs in the character list. -/
def containsChars (pat : List Char) : List Char → Bool
  | [] => pat.isEmpty
  | c :: cs => pat.isPrefixOf (c :: cs) || containsChars pat cs

/-- Substring test (`strings.Contains`), used to read rendered statements. -/
def contains (s pat : String) : Bool :=
  containsChars pat.data s.data

/-- The leftmost occurrence of a non-empty `old` replaced by `new`. -/
def replaceFirstChars (old new : List Char) : List Char → List Char
  | [] => []
  | c :: cs =>
    if old.isPrefixOf (c :: cs) then new ++ (c :: cs).drop old.length
    else c :: replaceFirstChars old new cs

/-- The call `strings.Replace(s, old, new, 1)` for a non-empty `old`. -/
def stringsReplaceOnce (s old new : String) : String :=
  ⟨replaceFirstChars old.data new.data s.data⟩

/-- Each `%s` verb replaced, left to right, by the next operand; an operand is
spliced as it is and not scanned again.  A verb without operand prints as
`%!s(MISSING)`. -/
def sprintfChars : List Char → List (List Char) → List Char
  | [], _ => []
  | [c], _ => [c]
  | c :: d :: rest, args =>
    if c = '%' ∧ d = 's' then
      match args with
      | a :: as => a ++ sprintfChars rest as
      | [] => "%!s(MISSING)".data ++ sprintfChars rest []
    else c :: sprintfChars (d :: rest) args

/-- The call `fmt.Sprintf(format, args...)` for a format whose only verbs are
`%s` and string operands, at most as many as verbs. -/
def fmtSprintf (format : String) (args : List String) : String :=
  ⟨sprintfChars format.data (args.map String.data)⟩

/-! ## Data model -/

/-- Errors are opaque values handed back by the store. -/
abbrev Err := String

/-- Modelled from the spec: `util.IsStringEmpty` is not in the source; a filter
field is used when it is "non-empty". -/
def IsStringEmpty (s : String) : Bool :=
  s.data.isEmpty

/-- Modelled from the spec: the type `datastore.PageDirection` and its two
values are not in the source; a page request has direction next or prev. -/
abbrev PageDirection := String

/-- Modelled from the spec: the direction constant `datastore.Next`. -/
def Next : PageDirection := "next"

/-- Modelled from the spec: the direction constant `datastore.Prev`. -/
def Prev : PageDirection := "prev"

/-- Modelled from the spec: the configured sort order of a page request is
asc or desc. -/
inductive SortDir where
  | ASC
  | DESC
  deriving DecidableEq, Repr

/-- Modelled from the spec: `datastore.Pageable` is not in the source; a page
request has a direction, a per-page size, a sort order and an opaque cursor
token.  The cursor is compared with event ids by the engine, so it has the
type `ι` of ids. -/
structure Pageable (ι : Type) where
  PerPage : Int
  Direction : PageDirection
  Order : SortDir
  Token : ι

/-- Modelled from the spec: `Pageable.SortOrder` is not in the source; it is
the keyword spliced after `ORDER BY` and compared with `"ASC"`. -/
def Pageable.SortOrder {ι : Type} (p : Pageable ι) : String :=
  match p.Order with
  | .ASC => "ASC"
  | .DESC => "DESC"

/-- Modelled from the spec: `Pageable.Limit` is not in the source; a page
query is limited to per-page+1 rows. -/
def Pageable.Limit {ι : Type} (p : Pageable ι) : Int :=
  p.PerPage + 1

/-- Modelled from the spec: `Pageable.Cursor` is not in the source; it is the
cursor token of the request. -/
def Pageable.Cursor {ι : Type} (p : Pageable ι) : ι :=
  p.Token

/-- The creation-time range of a filter, in Unix seconds. -/
structure SearchParams where
  CreatedAtStart : Int
  CreatedAtEnd : Int

/-- The fields of `datastore.Filter` the repository reads. -/
structure Filter (ι : Type) where
  Query : String
  IdempotencyKey : String
  EndpointID : String
  EndpointIDs : List String
  SourceID : String
  SourceIDs : List String
  SearchParams : SearchParams
  Pageable : Pageable ι

/-- The fields of `datastore.Event` the repository reads or writes here; ids
are of a type `ι` that the engine orders. -/
structure Event (ι : Type) where
  UID : ι
  ProjectID : String
  Endpoints : List String
  Status : String

/-- Modelled from the spec: `datastore.PrevRowCount` is not in the source; it
holds what the previous-row statement returned. -/
structure PrevRowCount where
  Count : Int
  deriving DecidableEq, Repr

/-- Named arguments bound to the paged statements (the map `arg`). -/
structure QueryArgs (ι : Type) where
  endpoint_ids : List String
  project_id : String
  source_ids : List String
  limit : Int
  start_date : Int
  end_date : Int
  query : String
  cursor : ι
  idempotency_key : String

/-- Named arguments bound to the count statement. -/
structure CountArgs where
  endpoint_ids : List String
  project_id : String
  source_id : String
  start_date : Int
  end_date : Int
  deriving DecidableEq, Repr

/-- A pair of times as Unix seconds (`time.Unix(s, 0)`). -/
def getCreatedDateFilter (startDate endDate : Int) : Int × Int :=
  (startDate, endDate)

/-- Modelled from the spec: `reverseOrder` is not in the source; direction prev
flips the pre-order. -/
def reverseOrder (sortOrder : String) : String :=
  if sortOrder = "ASC" then "DESC" else "ASC"

def getFwdEventPageQuery (sortOrder : String) : String :=
  if sortOrder = "ASC" then stringsReplaceOnce baseEventsPagedForward "<=" ">="
  else baseEventsPagedForward

def getBackwardEventPageQuery (sortOrder : String) : String :=
  if sortOrder = "ASC" then stringsReplaceOnce baseEventsPagedBackward ">=" "<="
  else baseEventsPagedBackward

def getCountDeliveriesPrevRowQuery (sortOrder : String) : String :=
  if sortOrder = "ASC" then stringsReplaceOnce countPrevEvents ">" "<"
  else countPrevEvents

/-! ## The paged listing (`LoadEventsPaged`) -/

/-- The database as a call sees it: the answer to the page statement and to
the previous-row statement, each given the statement text and its named
arguments.  An answer stands for `sqlx.Named`, `sqlx.In`, `Rebind`, the query
and the scan of its rows; any of them may fail. -/
structure PageDb (ι : Type) where
  queryPage : String → QueryArgs ι → Except Err (List (Event ι))
  queryPrev : String → QueryArgs ι → Except Err (Option PrevRowCount)

/-- How a call ends: with a value, with an error, or in a run-time panic. -/
inductive Outcome (α : Type) where
  | ok (a : α)
  | error (e : Err)
  | panic

/-- The page a successful call returns: the events, the ids of all fetched
rows (the input of the pagination data) and the previous-row count. -/
structure Page (ι : Type) where
  events : List (Event ι)
  ids : List ι
  rowCount : PrevRowCount

/-- All a call of `LoadEventsPaged` does: the state it leaves the filter
of the caller in, the page statement and arguments it sends, the previous-row
statement and arguments when it sends one, and how it ends. -/
structure LoadResult (ι : Type) where
  filter : Filter ι
  query : String
  args : QueryArgs ι
  countQuery : Option (String × QueryArgs ι)
  outcome : Outcome (Page ι)

namespace LoadEventsPaged

variable {ι : Type}

/-- The filter after `filter.EndpointIDs = append(filter.EndpointIDs,
filter.EndpointID)`, done through the pointer the caller passed. -/
def mergeEndpointID (filter : Filter ι) : Filter ι :=
  if !IsStringEmpty filter.EndpointID then
    { filter with EndpointIDs := filter.EndpointIDs ++ [filter.EndpointID] }
  else filter

/-- The map `arg`. -/
def arg (projectID : String) (filter : Filter ι) : QueryArgs ι :=
  let dates := getCreatedDateFilter filter.SearchParams.CreatedAtStart filter.SearchParams.CreatedAtEnd
  { endpoint_ids := filter.EndpointIDs
    project_id := projectID
    source_ids := filter.SourceIDs
    limit := filter.Pageable.Limit
    start_date := dates.1
    end_date := dates.2
    query := filter.Query
    cursor := filter.Pageable.Cursor
    idempotency_key := filter.IdempotencyKey }

/-- The variable `baseQueryPagination`. -/
def baseQueryPagination (filter : Filter ι) : String :=
  if filter.Pageable.Direction = Next then getFwdEventPageQuery filter.Pageable.SortOrder
  else getBackwardEventPageQuery filter.Pageable.SortOrder

/-- The variable `filterQuery` once the three optional filters are appended. -/
def filterQuery (filter : Filter ι) : String :=
  let filterQuery := baseEventFilter
  let filterQuery := if filter.SourceIDs.length > 0 then filterQuery ++ sourceFilter else filterQuery
  let filterQuery := if filter.EndpointIDs.length > 0 then filterQuery ++ endpointFilter else filterQuery
  if !IsStringEmpty filter.Query then filterQuery ++ searchFilter else filterQuery

/-- The variable `base`. -/
def base (filter : Filter ι) : String :=
  if !IsStringEmpty filter.Query then baseEventsSearch else baseEventsPaged

/-- The variable `preOrder`. -/
def preOrder (filter : Filter ι) : String :=
  if filter.Pageable.Direction = Prev then reverseOrder filter.Pageable.SortOrder
  else filter.Pageable.SortOrder

/-- The page statement, before its named arguments are bound. -/
def query (filter : Filter ι) : String :=
  fmtSprintf (baseQueryPagination filter)
    [base filter, filterQuery filter, preOrder filter, filter.Pageable.SortOrder]

/-- The variable `baseCountEvents`. -/
def baseCountEvents (filter : Filter ι) : String :=
  if !IsStringEmpty filter.Query then baseCountPrevEventSearch else baseCountPrevEvents

/-- The variable `tmp`. -/
def tmp (filter : Filter ι) : String :=
  fmtSprintf (getCountDeliveriesPrevRowQuery filter.Pageable.SortOrder) [filter.Pageable.SortOrder]

/-- The previous-row statement `cq`. -/
def cq (filter : Filter ι) : String :=
  baseCountEvents filter ++ filterQuery filter ++ tmp filter ++ ");"

/-- The previous-row statement and its arguments (`qarg`, the map `arg` with
the cursor set to the id of the first fetched row), sent when the page
statement returned at least one row. -/
def countQuery (filter : Filter ι) (arg : QueryArgs ι) :
    Except Err (List (Event ι)) → Option (String × QueryArgs ι)
  | .ok (first :: _) => some (cq filter, { arg with cursor := first.UID })
  | _ => none

/-- The step `if len(events) > PerPage then events = events[:len(events)-1]`;
`none` is the panic of a slice bound below zero. -/
def trim {α : Type} (perPage : Int) (events : List α) : Option (List α) :=
  if (events.length : Int) > perPage then
    if events.length = 0 then none else some (events.take (events.length - 1))
  else some events

/-- The end of a call whose page statement returned `events` and whose
previous-row count is `rowCount`. -/
def finish (filter : Filter ι) (events : List (Event ι)) (rowCount : PrevRowCount) :
    Outcome (Page ι) :=
  let ids := events.map Event.UID
  match trim filter.Pageable.PerPage events with
  | none => .panic
  | some events => .ok { events := events, ids := ids, rowCount := rowCount }

/-- How the call ends, given the answer to the page statement. -/
def outcome (db : PageDb ι) (filter : Filter ι) (arg : QueryArgs ι) :
    Except Err (List (Event ι)) → Outcome (Page ι)
  | .error e => .error e
  | .ok [] => finish filter [] { Count := 0 }
  | .ok (first :: rest) =>
    match db.queryPrev (cq filter) { arg with cursor := first.UID } with
    | .error e => .error e
    | .ok none => finish filter (first :: rest) { Count := 0 }
    | .ok (some rowCount) => finish filter (first :: rest) rowCount

end LoadEventsPaged

/-- The method `eventRepo.LoadEventsPaged`. -/
def LoadEventsPaged {ι : Type} (db : PageDb ι) (projectID : String) (filter : Filter ι) :
    LoadResult ι :=
  let filter := LoadEventsPaged.mergeEndpointID filter
  let arg := LoadEventsPaged.arg projectID filter
  let query := LoadEventsPaged.query filter
  let fetched := db.queryPage query arg
  { filter := filter
    query := query
    args := arg
    countQuery := LoadEventsPaged.countQuery filter arg fetched
    outcome := LoadEventsPaged.outcome db filter arg fetched }

/-! ## The count (`CountEvents`) -/

/-- All a call of `CountEvents` does. -/
structure CountResult (ι : Type) where
  filter : Filter ι
  query : String
  args : CountArgs
  outcome : Except Err Int

namespace CountEvents

variable {ι : Type}

/-- The map `arg`. -/
def arg (projectID : String) (filter : Filter ι) : CountArgs :=
  let dates := getCreatedDateFilter filter.SearchParams.CreatedAtStart filter.SearchParams.CreatedAtEnd
  { endpoint_ids := filter.EndpointIDs
    project_id := projectID
    source_id := filter.SourceID
    start_date := dates.1
    end_date := dates.2 }

/-- The count statement, before its named arguments are bound. -/
def query (filter : Filter ι) : String :=
  let query := countEvents
  let query := if filter.EndpointIDs.length > 0 then query ++ " AND e.id IN (:endpoint_ids) " else query
  if !IsStringEmpty filter.SourceID then query ++ " AND ev.source_id = :source_id " else query

end CountEvents

/-- The method `eventRepo.CountEvents`; `queryRow` is the answer of the
database to the statement. -/
def CountEvents {ι : Type} (queryRow : String → CountArgs → Except Err Int)
    (projectID : String) (filter : Filter ι) : CountResult ι :=
  let arg := CountEvents.arg projectID filter
  let query := CountEvents.query filter
  { filter := filter
    query := query
    args := arg
    outcome := queryRow query arg }

/-! ## Reading of the paged statements by the engine

The relational engine is not part of the repository.  For the properties
that speak about the rows a call returns, the engine is read off the text of
the statement it is sent: the comparison that bounds `ev.id` by `:cursor`,
the inner `ORDER BY ev.id`, `LIMIT :limit` and the outer `ORDER BY id`.
The rows that satisfy the remaining predicates of the statement are a
parameter, so every store content and every filter is covered. -/

/-- A comparison of a row id with the cursor. -/
inductive Cmp where
  | le
  | ge
  | lt
  | gt
  deriving DecidableEq, Repr

/-- Whether row id `x` satisfies the comparison with cursor `c`. -/
def Cmp.test {ι : Type} [LinearOrder ι] : Cmp → ι → ι → Bool
  | .le, x, c => decide (x ≤ c)
  | .ge, x, c => decide (c ≤ x)
  | .lt, x, c => decide (x < c)
  | .gt, x, c => decide (c < x)

/-- The comparison that bounds `ev.id` by `:cursor` in a statement. -/
def cursorBoundOf (q : String) : Option Cmp :=
  if contains q " AND ev.id <= :cursor" then some .le
  else if contains q " AND ev.id >= :cursor" then some .ge
  else if contains q " AND ev.id < :cursor" then some .lt
  else if contains q " AND ev.id > :cursor" then some .gt
  else none

/-- The order of the inner selection of a page statement. -/
def innerOrderOf (q : String) : Option SortDir :=
  if contains q "ORDER BY ev.id ASC" then some .ASC
  else if contains q "ORDER BY ev.id DESC" then some .DESC
  else none

/-- The final order of a page statement. -/
def outerOrderOf (q : String) : Option SortDir :=
  if contains q "ORDER BY id ASC" then some .ASC
  else if contains q "ORDER BY id DESC" then some .DESC
  else none

/-- Rows ordered by id, ascending or descending. -/
def orderBy {ι : Type} [LinearOrder ι] : SortDir → List (Event ι) → List (Event ι)
  | .ASC, rows => rows.insertionSort (fun a b => a.UID ≤ b.UID)
  | .DESC, rows => rows.insertionSort (fun a b => b.UID ≤ a.UID)

namespace Pg

variable {ι : Type} [LinearOrder ι]

/-- The answer to a page statement over `rows`: the rows within the cursor
bound, in the inner order, cut at the limit, then in the final order.  A
negative limit is an error of the engine. -/
def queryPage (rows : List (Event ι)) (q : String) (a : QueryArgs ι) :
    Except Err (List (Event ι)) :=
  match cursorBoundOf q, innerOrderOf q, outerOrderOf q with
  | some op, some pre, some ord =>
    if a.limit < 0 then .error "LIMIT must not be negative"
    else .ok (orderBy ord ((orderBy pre (rows.filter fun e => op.test e.UID a.cursor)).take a.limit.toNat))
  | _, _, _ => .error "syntax error"

/-- The answer to a previous-row statement over `rows`: whether a row lies
within its cursor bound. -/
def queryPrev (rows : List (Event ι)) (q : String) (a : QueryArgs ι) :
    Except Err (Option PrevRowCount) :=
  match cursorBoundOf q with
  | some op => .ok (some { Count := if rows.any fun e => op.test e.UID a.cursor then 1 else 0 })
  | none => .error "syntax error"

end Pg

/-- The engine over `rows` as a database. -/
def pg {ι : Type} [LinearOrder ι] (rows : List (Event ι)) : PageDb ι :=
  { queryPage := Pg.queryPage rows
    queryPrev := Pg.queryPrev rows }

/-- The text of a query up to and including its first `;`, or all of it when
it has none. -/
def firstStatementChars : List Char → List Char
  | [] => []
  | c :: cs => if c = ';' then [c] else c :: firstStatementChars cs

/-- The statement a query text holds for the engine: a `;` ends the
statement, and what follows it is no part of the statement. -/
def firstStatement (q : String) : String :=
  ⟨firstStatementChars q.data⟩

/-! ## The statements the spec describes -/

/-- The page statement with its parts named: the row source `base`, the filter
part `filterQuery`, the comparison `op` that bounds the cursor, the order
`preOrder` of the inner selection and the final `order`; `indent` is the white
space before the inner `ORDER BY` and `LIMIT`. -/
def pageStatement (base filterQuery op indent preOrder order : String) : String :=
  "\n\tWITH events AS (\n        " ++ (base ++ (" " ++ (filterQuery ++ (" AND ev.id " ++ (op ++
    (" :cursor\n\t" ++ (indent ++ ("ORDER BY ev.id " ++ (preOrder ++ ("\n\t" ++ (indent ++
    ("LIMIT :limit\n\t)\n\n\tSELECT * FROM events ORDER BY id " ++ (order ++ "\n\t")))))))))))))

/-- The previous-row statement with its parts named: the row source `base`,
the filter part `filterQuery`, the comparison `op` of the row id with the
cursor and the `order` of its selection. -/
def prevRowStatement (base filterQuery op order : String) : String :=
  base ++ filterQuery ++ (" AND ev.id " ++ (op ++ (" :cursor GROUP BY ev.id ORDER BY ev.id " ++
    (order ++ " LIMIT 1")))) ++ ");"

/-- The filter part the spec describes: the mandatory fragment followed by the
source-id, endpoint-id and full-text predicates, each when asked for. -/
def filterPart (source endpoint search : Bool) : String :=
  baseEventFilter ++ (if source then sourceFilter else "") ++
    (if endpoint then endpointFilter else "") ++ (if search then searchFilter else "")

/-! ## The association writers (`CreateEvent`, `UpdateEventEndpoints`) -/

/-- A row of the association statement. -/
structure EventEndpoint (ι : Type) where
  EventID : ι
  EndpointID : String

/-- A call on the transaction. -/
inductive TxCall (ι : Type) where
  | ExecContext (stmt : String)
  | NamedExecContext (stmt : String) (ids : List (EventEndpoint ι))
  | Commit
  | Rollback

/-- The answers of the transaction to a writer: the error, if any, of the
event statement, of the `k`-th association statement issued (from 0) and of
the commit. -/
structure TxEnv where
  exec : Option Err
  namedExec : Nat → Option Err
  commit : Option Err

/-- What a writer did: its calls on the transaction, in order, and the error
it returns. -/
structure WriteResult (ι : Type) where
  calls : List (TxCall ι)
  err : Option Err

/-- Modelled from the spec: the constant `datastore.PendingStatus` is not in
the source; a new event has status pending. -/
def PendingStatus : String := "Pending"

/-- Modelled from the spec: `rollbackTx` is not in the source; a writer that
owns its transaction rolls it back on any error or early return, so the
deferred call is a `Rollback` on the transaction. -/
@[reducible] def rollbackTx {ι : Type} : List (TxCall ι) :=
  [TxCall.Rollback]

/-- The slice expression `s[i:j]` for `i ≤ j ≤ len(s)`. -/
def goSlice {α : Type} (s : List α) (i j : Nat) : List α :=
  (s.drop i).take (j - i)

/-- The loop `for i := 0; i < len(endpoints); i += PartitionSize` of both
writers, entered at loop variables `i` and `j` with `k` association
statements issued so far: the association calls it makes and the error it
returns with, if any.  The partition size is the parameter `size`, which the
writers set to `PartitionSize`. -/
def associateBy {ι : Type} (size : Nat) (hsize : 0 < size) (namedExec : Nat → Option Err) (uid : ι)
    (endpoints : List String) (k i j : Nat) : List (TxCall ι) × Option Err :=
  if i < endpoints.length then
    let j := if j + size > endpoints.length then endpoints.length else j + size
    let ids := (goSlice endpoints i j).map fun endpointID =>
      ({ EventID := uid, EndpointID := endpointID } : EventEndpoint ι)
    match namedExec k with
    | some e => ([TxCall.NamedExecContext createEventEndpoints ids], some e)
    | none =>
      (TxCall.NamedExecContext createEventEndpoints ids ::
          (associateBy size hsize namedExec uid endpoints (k + 1) (i + size) j).1,
        (associateBy size hsize namedExec uid endpoints (k + 1) (i + size) j).2)
  else ([], none)
termination_by endpoints.length - i

/-- The association loop of the writers, at partition size `PartitionSize`. -/
def associate {ι : Type} (namedExec : Nat → Option Err) (uid : ι) (endpoints : List String)
    (k i j : Nat) : List (TxCall ι) × Option Err :=
  associateBy PartitionSize (by decide) namedExec uid endpoints k i j

/-- The body both writers share once the transaction is there: the deferred
`rollbackTx` when the transaction is not wrapped, the statement for the
event, the association loop, and the commit when the transaction is not
wrapped. -/
def writeCalls {ι : Type} (stmt : String) (isWrapped : Bool) (env : TxEnv) (uid : ι)
    (endpoints : List String) : WriteResult ι :=
  let deferred : List (TxCall ι) := if !isWrapped then rollbackTx else []
  match env.exec with
  | some e => { calls := TxCall.ExecContext stmt :: deferred, err := some e }
  | none =>
    let loop := associate env.namedExec uid endpoints 0 0 0
    match loop.2 with
    | some e => { calls := TxCall.ExecContext stmt :: (loop.1 ++ deferred), err := some e }
    | none =>
      if isWrapped then
        { calls := TxCall.ExecContext stmt :: (loop.1 ++ deferred), err := none }
      else
        { calls := TxCall.ExecContext stmt :: (loop.1 ++ (TxCall.Commit :: deferred)), err := env.commit }

/-- The method `eventRepo.CreateEvent`: the event as the call leaves it and
what the call did.  `getTx` is the answer of `GetTx`: an error, or a
transaction and whether it is wrapped. -/
def CreateEvent {ι : Type} (getTx : Except Err Bool) (env : TxEnv) (event : Event ι) :
    Event ι × WriteResult ι :=
  let event := { event with Status := PendingStatus }
  match getTx with
  | .error e => (event, { calls := [], err := some e })
  | .ok isWrapped =>
    let deferred : List (TxCall ι) := if !isWrapped then rollbackTx else []
    match env.exec with
    | some e => (event, { calls := TxCall.ExecContext createEvent :: deferred, err := some e })
    | none =>
      let endpoints := event.Endpoints
      let loop := associate env.namedExec event.UID endpoints 0 0 0
      match loop.2 with
      | some e =>
        (event, { calls := TxCall.ExecContext createEvent :: (loop.1 ++ deferred), err := some e })
      | none =>
        if isWrapped then
          (event, { calls := TxCall.ExecContext createEvent :: (loop.1 ++ deferred), err := none })
        else
          (event, { calls := TxCall.ExecContext createEvent :: (loop.1 ++ (TxCall.Commit :: deferred)),
                    err := env.commit })

/-- The method `eventRepo.UpdateEventEndpoints`. -/
def UpdateEventEndpoints {ι : Type} (getTx : Except Err Bool) (env : TxEnv) (event : Event ι)
    (endpoints : List String) : WriteResult ι :=
  match getTx with
  | .error e => { calls := [], err := some e }
  | .ok isWrapped =>
    let deferred : List (TxCall ι) := if !isWrapped then rollbackTx else []
    match env.exec with
    | some e => { calls := TxCall.ExecContext updateEventEndpoints :: deferred, err := some e }
    | none =>
      let loop := associate env.namedExec event.UID endpoints 0 0 0
      match loop.2 with
      | some e =>
        { calls := TxCall.ExecContext updateEventEndpoints :: (loop.1 ++ deferred), err := some e }
      | none =>
        if isWrapped then
          { calls := TxCall.ExecContext updateEventEndpoints :: (loop.1 ++ deferred), err := none }
        else
          { calls := TxCall.ExecContext updateEventEndpoints :: (loop.1 ++ (TxCall.Commit :: deferred)),
            err := env.commit }

/-- The association rows of the `NamedExecContext` calls, one list a call. -/
def issuedChunks {ι : Type} : List (TxCall ι) → List (List (EventEndpoint ι))
  | [] => []
  | TxCall.NamedExecContext _ ids :: cs => ids :: issuedChunks cs
  | _ :: cs => issuedChunks cs

/-- Reading of a call sequence by the engine: the association rows that the
sequence can have made durable.  Rows written on the transaction are pending
until a `Commit`, which makes them durable; a `Rollback` drops them. -/
def committedRows {ι : Type} :
    List (TxCall ι) → List (EventEndpoint ι) → List (EventEndpoint ι)
  | [], _ => []
  | TxCall.ExecContext _ :: cs, pending => committedRows cs pending
  | TxCall.NamedExecContext _ ids :: cs, pending => committedRows cs (pending ++ ids)
  | TxCall.Commit :: _, pending => pending
  | TxCall.Rollback :: _, _ => []

/-- The slices `endpoints[i:j]` the loop takes from loop variables `i` and `j`
on, when no statement fails. -/
def chunkList (size : Nat) (hsize : 0 < size) (endpoints : List String) (i j : Nat) :
    List (List String) :=
  if i < endpoints.length then
    let j := if j + size > endpoints.length then endpoints.length else j + size
    goSlice endpoints i j :: chunkList size hsize endpoints (i + size) j
  else []
termination_by endpoints.length - i

/-- The association call for one slice of endpoint ids. -/
def chunkCall {ι : Type} (uid : ι) (chunk : List String) : TxCall ι :=
  TxCall.NamedExecContext createEventEndpoints
    (chunk.map fun endpointID => ({ EventID := uid, EndpointID := endpointID } : EventEndpoint ι))

/-- Calls made one after the other, the `k`-th answered by `namedExec k`, up to
and including the first that fails. -/
def runCalls {ι : Type} (namedExec : Nat → Option Err) :
    Nat → List (TxCall ι) → List (TxCall ι) × Option Err
  | _, [] => ([], none)
  | k, c :: cs =>
    match namedExec k with
    | some e => ([c], some e)
    | none => (c :: (runCalls namedExec (k + 1) cs).1, (runCalls namedExec (k + 1) cs).2)

/-! ## Sample data -/

/-- A store row with the given id. -/
def sampleRow (id : Nat) : Event Nat :=
  { UID := id, ProjectID := "p1", Endpoints := [], Status := "Pending" }

/-- A filter without optional predicates for the given page request. -/
def sampleFilter (direction : PageDirection) (order : SortDir) (cursor : Nat) (perPage : Int) :
    Filter Nat :=
  { Query := "", IdempotencyKey := "", EndpointID := "", EndpointIDs := [], SourceID := "",
    SourceIDs := [], SearchParams := { CreatedAtStart := 0, CreatedAtEnd := 4102444800 },
    Pageable := { PerPage := perPage, Direction := direction, Order := order, Token := cursor } }

/-- The ids of the events of a returned page. -/
def Outcome.eventIds {ι : Type} : Outcome (Page ι) → Option (List ι)
  | .ok page => some (page.events.map Event.UID)
  | _ => none

/-- A transaction on which every statement and the commit succeed. -/
def okEnv : TxEnv :=
  { exec := none, namedExec := fun _ => none, commit := none }

/-- A transaction on which the event statement succeeds and every association
statement fails. -/
def failingEnv : TxEnv :=
  { exec := none, namedExec := fun _ => some "deadlock detected", commit := none }

/-- An event with three endpoints. -/
def sampleEvent : Event Nat :=
  { UID := 7, ProjectID := "p1", Endpoints := ["e1", "e2", "e3"], Status := "" }

/-- A filter that asks for the sources of a set and for an idempotency key. -/
def sourceSetFilter : Filter Nat :=
  { sampleFilter Next SortDir.DESC 0 20 with SourceIDs := ["s1"], IdempotencyKey := "k1" }

/-- A filter with the endpoint-id set `["e1"]` and no other optional field. -/
def endpointSetFilter : Filter Nat :=
  { sampleFilter Next SortDir.DESC 0 20 with EndpointIDs := ["e1"] }

/-- A filter that names a single endpoint and has an empty endpoint-id set. -/
def singleEndpointFilter : Filter Nat :=
  { sampleFilter Next SortDir.DESC 0 20 with EndpointID := "e1" }

/-- A database that counts no event. -/
def countsNothing : String → CountArgs → Except Err Int :=
  fun _ _ => .ok 0

/-- The page returned for the first two of the rows 100, 99 and 98. -/
def samplePage : Page Nat :=
  { events := [sampleRow 100, sampleRow 99], ids := [100, 99, 98], rowCount := { Count := 1 } }

/-- The page returned for the rows 102 and 101 fetched before row 100. -/
def samplePrevPage : Page Nat :=
  { events := [sampleRow 102, sampleRow 101], ids := [102, 101, 100], rowCount := { Count := 1 } }

/-! ## The association loop -/

theorem associateBy_eq_runCalls {ι : Type} (P : Nat) (hP : 0 < P) (ne : Nat → Option Err) (uid : ι)
    (eps : List String) :
    ∀ n k i j, eps.length - i = n →
      associateBy P hP ne uid eps k i j = runCalls ne k ((chunkList P hP eps i j).map (chunkCall uid)) := by
  intro n
  induction n using Nat.strong_induction_on with
  | _ n ih =>
    intro k i j hn
    rw [associateBy, chunkList]
    by_cases h : i < eps.length
    · simp only [h, if_true, List.map_cons]
      rw [runCalls]
      cases hk : ne k with
      | some e => rfl
      | none =>
        simp only []
        rw [ih (eps.length - (i + P)) (by omega) (k + 1) (i + P) _ rfl]
        rfl
    · simp only [h, if_false]
      rfl

theorem runCalls_ok {ι : Type} (ne : Nat → Option Err) :
    ∀ (cs : List (TxCall ι)) (k : Nat), (∀ m, m < cs.length → ne (k + m) = none) →
      runCalls ne k cs = (cs, none) := by
  intro cs
  induction cs with
  | nil => intro k _; rfl
  | cons c cs ih =>
    intro k h
    have h0 : ne k = none := by simpa using h 0 (by simp)
    have ht : ∀ m, m < cs.length → ne (k + 1 + m) = none := by
      intro m hm
      have := h (m + 1) (by simp; omega)
      rwa [show k + 1 + m = k + (m + 1) by omega]
    rw [runCalls, h0]
    simp only [ih (k + 1) ht]

theorem runCalls_fail {ι : Type} (ne : Nat → Option Err) (e : Err) :
    ∀ (cs : List (TxCall ι)) (k m : Nat), m < cs.length →
      (∀ m', m' < m → ne (k + m') = none) → ne (k + m) = some e →
      runCalls ne k cs = (cs.take (m + 1), some e) := by
  intro cs
  induction cs with
  | nil => intro k m hm; simp at hm
  | cons c cs ih =>
    intro k m hm hbefore hat
    rw [runCalls]
    cases m with
    | zero =>
      have h0 : ne k = some e := by simpa using hat
      rw [h0]
      simp
    | succ m =>
      have h0 : ne k = none := by simpa using hbefore 0 (by omega)
      rw [h0]
      have hm' : m < cs.length := by simpa using hm
      have hb : ∀ m', m' < m → ne (k + 1 + m') = none := by
        intro m' h'
        have := hbefore (m' + 1) (by omega)
        rwa [show k + 1 + m' = k + (m' + 1) by omega]
      have ha : ne (k + 1 + m) = some e := by
        rwa [show k + 1 + m = k + (m + 1) by omega]
      simp only [ih (k + 1) m hm' hb ha, List.take_succ_cons]

theorem chunkList_done (P : Nat) (hP : 0 < P) (eps : List String) (i j : Nat)
    (h : ¬ i < eps.length) : chunkList P hP eps i j = [] := by
  rw [chunkList]
  simp only [h, if_false]

theorem chunkList_step (P : Nat) (hP : 0 < P) (eps : List String) (i j : Nat)
    (h : i < eps.length) :
    chunkList P hP eps i j =
      goSlice eps i (if j + P > eps.length then eps.length else j + P) ::
        chunkList P hP eps (i + P) (if j + P > eps.length then eps.length else j + P) := by
  rw [chunkList]
  simp only [h, if_true]

theorem chunkList_join (P : Nat) (hP : 0 < P) (eps : List String) :
    ∀ n i, eps.length - i = n → (chunkList P hP eps i i).flatten = eps.drop i := by
  intro n
  induction n using Nat.strong_induction_on with
  | _ n ih =>
    intro i hn
    by_cases h : i < eps.length
    · rw [chunkList_step P hP eps i i h]
      by_cases h2 : i + P < eps.length
      · have hj : (if i + P > eps.length then eps.length else i + P) = i + P := by
          rw [if_neg (by omega)]
        rw [hj, List.flatten_cons, ih (eps.length - (i + P)) (by omega) (i + P) rfl]
        unfold goSlice
        rw [show i + P - i = P by omega, show List.drop (i + P) eps = List.drop P (List.drop i eps) by simp [List.drop_drop, Nat.add_comm]]
        exact List.take_append_drop P (eps.drop i)
      · rw [chunkList_done P hP eps (i + P) _ (by omega)]
        have hj : (if i + P > eps.length then eps.length else i + P) = eps.length := by
          split <;> omega
        rw [hj]
        unfold goSlice
        simp only [List.flatten_cons, List.flatten_nil, List.append_nil]
        apply List.take_of_length_le
        simp
    · rw [chunkList_done P hP eps i i h]
      simp only [List.flatten_nil]
      exact (List.drop_eq_nil_of_le (by omega)).symm

theorem chunkList_sizes (P : Nat) (hP : 0 < P) (eps : List String) :
    ∀ n i, eps.length - i = n →
      ∀ c ∈ chunkList P hP eps i i, 0 < c.length ∧ c.length ≤ P := by
  intro n
  induction n using Nat.strong_induction_on with
  | _ n ih =>
    intro i hn c hc
    by_cases h : i < eps.length
    · rw [chunkList_step P hP eps i i h] at hc
      by_cases h2 : i + P < eps.length
      · have hj : (if i + P > eps.length then eps.length else i + P) = i + P := by
          rw [if_neg (by omega)]
        rw [hj] at hc
        rcases List.mem_cons.mp hc with hc | hc
        · subst hc
          unfold goSlice
          simp only [List.length_take, List.length_drop]
          omega
        · exact ih (eps.length - (i + P)) (by omega) (i + P) rfl c hc
      · rw [chunkList_done P hP eps (i + P) _ (by omega)] at hc
        have hj : (if i + P > eps.length then eps.length else i + P) = eps.length := by
          split <;> omega
        rw [hj] at hc
        have hc : c = goSlice eps i eps.length := by simpa using hc
        subst hc
        unfold goSlice
        simp only [List.length_take, List.length_drop]
        omega
    · rw [chunkList_done P hP eps i i h] at hc
      simp at hc

theorem chunkList_count (P : Nat) (hP : 0 < P) (eps : List String) :
    ∀ n i, eps.length - i = n →
      eps.length - i ≤ (chunkList P hP eps i i).length * P ∧
        (chunkList P hP eps i i).length * P < eps.length - i + P := by
  intro n
  induction n using Nat.strong_induction_on with
  | _ n ih =>
    intro i hn
    by_cases h : i < eps.length
    · rw [chunkList_step P hP eps i i h]
      by_cases h2 : i + P < eps.length
      · have hj : (if i + P > eps.length then eps.length else i + P) = i + P := by
          rw [if_neg (by omega)]
        rw [hj]
        have := ih (eps.length - (i + P)) (by omega) (i + P) rfl
        simp only [List.length_cons, Nat.succ_mul]
        omega
      · rw [chunkList_done P hP eps (i + P) _ (by omega)]
        simp only [List.length_cons, List.length_nil, Nat.zero_add, Nat.one_mul]
        omega
    · rw [chunkList_done P hP eps i i h]
      simp only [List.length_nil, Nat.zero_mul]
      omega

/-! ## Calls of the writers -/

theorem PartitionSize_pos : 0 < PartitionSize := by decide

theorem associate_eq_runCalls {ι : Type} (ne : Nat → Option Err) (uid : ι) (eps : List String) :
    associate ne uid eps 0 0 0 =
      runCalls ne 0 ((chunkList PartitionSize PartitionSize_pos eps 0 0).map (chunkCall uid)) :=
  associateBy_eq_runCalls PartitionSize PartitionSize_pos ne uid eps _ 0 0 0 rfl

theorem chunkList_length (eps : List String) :
    (chunkList PartitionSize PartitionSize_pos eps 0 0).length =
      (eps.length + PartitionSize - 1) / PartitionSize := by
  have h := chunkList_count PartitionSize PartitionSize_pos eps _ 0 rfl
  unfold PartitionSize at h ⊢
  omega

theorem CreateEvent_eq_writeCalls {ι : Type} (w : Bool) (env : TxEnv) (event : Event ι) :
    (CreateEvent (.ok w) env event).2 = writeCalls createEvent w env event.UID event.Endpoints := by
  unfold CreateEvent writeCalls
  cases env.exec with
  | some e => rfl
  | none =>
    simp only []
    split
    · rfl
    · split <;> rfl

theorem UpdateEventEndpoints_eq_writeCalls {ι : Type} (w : Bool) (env : TxEnv) (event : Event ι)
    (endpoints : List String) :
    UpdateEventEndpoints (.ok w) env event endpoints =
      writeCalls updateEventEndpoints w env event.UID endpoints := by
  unfold UpdateEventEndpoints writeCalls
  cases env.exec with
  | some e => rfl
  | none => rfl

theorem issuedChunks_append {ι : Type} (xs ys : List (TxCall ι)) :
    issuedChunks (xs ++ ys) = issuedChunks xs ++ issuedChunks ys := by
  induction xs with
  | nil => rfl
  | cons x xs ih =>
    cases x <;> simp [issuedChunks, ih]

theorem issuedChunks_chunkCalls {ι : Type} (uid : ι) (cs : List (List String)) :
    issuedChunks (cs.map (chunkCall uid)) =
      cs.map fun c => c.map fun endpointID =>
        ({ EventID := uid, EndpointID := endpointID } : EventEndpoint ι) := by
  induction cs with
  | nil => rfl
  | cons c cs ih => simp [chunkCall, issuedChunks, ih]

theorem commit_not_mem_chunkCalls {ι : Type} (uid : ι) (cs : List (List String)) :
    TxCall.Commit ∉ cs.map (chunkCall uid) := by
  simp [chunkCall]

theorem rollback_not_mem_chunkCalls {ι : Type} (uid : ι) (cs : List (List String)) :
    TxCall.Rollback ∉ cs.map (chunkCall uid) := by
  simp [chunkCall]

theorem committedRows_of_no_commit {ι : Type} :
    ∀ (calls : List (TxCall ι)) (pending : List (EventEndpoint ι)),
      TxCall.Commit ∉ calls → committedRows calls pending = [] := by
  intro calls
  induction calls with
  | nil => intro _ _; rfl
  | cons c cs ih =>
    intro pending h
    have hc : TxCall.Commit ∉ cs := fun hm => h (List.mem_cons_of_mem _ hm)
    cases c with
    | ExecContext s => exact ih pending hc
    | NamedExecContext s ids => exact ih _ hc
    | Commit => exact absurd (List.mem_cons_self _ _) h
    | Rollback => rfl

/-- The result of the shared body when the event statement fails. -/
theorem writeCalls_exec_fail {ι : Type} (stmt : String) (w : Bool) (env : TxEnv) (uid : ι)
    (eps : List String) (e : Err) (h : env.exec = some e) :
    writeCalls stmt w env uid eps =
      { calls := TxCall.ExecContext stmt :: (if !w then [TxCall.Rollback] else []), err := some e } := by
  unfold writeCalls
  rw [h]

/-- The result of the shared body when no statement fails. -/
theorem writeCalls_all_ok {ι : Type} (stmt : String) (w : Bool) (env : TxEnv) (uid : ι)
    (eps : List String) (h : env.exec = none)
    (hne : ∀ k, k < (eps.length + PartitionSize - 1) / PartitionSize → env.namedExec k = none) :
    writeCalls stmt w env uid eps =
      { calls := TxCall.ExecContext stmt ::
          ((chunkList PartitionSize PartitionSize_pos eps 0 0).map (chunkCall uid) ++
            (if w then [] else [TxCall.Commit, TxCall.Rollback])),
        err := if w then none else env.commit } := by
  unfold writeCalls
  rw [h]
  simp only []
  rw [associate_eq_runCalls, runCalls_ok]
  · cases w <;> simp
  · intro m hm
    rw [List.length_map, chunkList_length] at hm
    simpa using hne m hm

/-- The result of the shared body when association statement `k` is the
first statement to fail. -/
theorem writeCalls_chunk_fail {ι : Type} (stmt : String) (w : Bool) (env : TxEnv) (uid : ι)
    (eps : List String) (e : Err) (k : Nat) (h : env.exec = none)
    (hk : k < (eps.length + PartitionSize - 1) / PartitionSize)
    (hbefore : ∀ m, m < k → env.namedExec m = none) (hat : env.namedExec k = some e) :
    writeCalls stmt w env uid eps =
      { calls := TxCall.ExecContext stmt ::
          (((chunkList PartitionSize PartitionSize_pos eps 0 0).take (k + 1)).map (chunkCall uid) ++
            (if w then [] else [TxCall.Rollback])),
        err := some e } := by
  unfold writeCalls
  rw [h]
  simp only []
  rw [associate_eq_runCalls, runCalls_fail env.namedExec e _ 0 k]
  · cases w <;> simp [List.map_take]
  · rw [List.length_map, chunkList_length]; exact hk
  · intro m hm; simpa using hbefore m hm
  · simpa using hat

theorem goSlice_length {α : Type} (s : List α) (i j : Nat) :
    (goSlice s i j).length = min (j - i) (s.length - i) := by
  unfold goSlice
  simp only [List.length_take, List.length_drop]

theorem chunkList_lengths_65000 (eps : List String) (h : eps.length = 65000) :
    (chunkList PartitionSize PartitionSize_pos eps 0 0).map List.length = [30000, 30000, 5000] := by
  have hP : PartitionSize = 30000 := rfl
  rw [chunkList_step _ _ _ _ _ (by omega)]
  rw [if_neg (by omega)]
  rw [chunkList_step _ _ _ _ _ (by omega)]
  rw [if_neg (by omega)]
  rw [chunkList_step _ _ _ _ _ (by omega)]
  rw [if_pos (by omega)]
  rw [chunkList_done _ _ _ _ _ (by omega)]
  simp only [List.map_cons, List.map_nil, goSlice_length, h, hP]
  rfl

/-- The association chunks a writer issues when no statement fails. -/
theorem issuedChunks_all_ok {ι : Type} (stmt : String) (w : Bool) (env : TxEnv) (uid : ι)
    (eps : List String) (h : env.exec = none) (hne : ∀ k, env.namedExec k = none) :
    issuedChunks (writeCalls stmt w env uid eps).calls =
      (chunkList PartitionSize PartitionSize_pos eps 0 0).map fun c => c.map fun endpointID =>
        ({ EventID := uid, EndpointID := endpointID } : EventEndpoint ι) := by
  rw [writeCalls_all_ok stmt w env uid eps h (fun k _ => hne k)]
  cases w <;>
    simp [issuedChunks, issuedChunks_append, issuedChunks_chunkCalls]

theorem writer_cases {ι : Type} (w : Bool) (env : TxEnv) (event : Event ι)
    (endpoints eps : List String) (r : WriteResult ι)
    (hr : (r = (CreateEvent (.ok w) env event).2 ∧ eps = event.Endpoints) ∨
      (r = UpdateEventEndpoints (.ok w) env event endpoints ∧ eps = endpoints)) :
    ∃ stmt, r = writeCalls stmt w env event.UID eps := by
  rcases hr with ⟨h1, h2⟩ | ⟨h1, h2⟩
  · exact ⟨createEvent, by rw [h1, h2, CreateEvent_eq_writeCalls]⟩
  · exact ⟨updateEventEndpoints, by rw [h1, h2, UpdateEventEndpoints_eq_writeCalls]⟩

/-- C2: when no statement fails, the association statements issued by
`CreateEvent` (over the endpoints of the event) and by `UpdateEventEndpoints`
(over its endpoint argument) are `ceil(n / 30000)` in number for a list of
`n` endpoint ids; each carries at least one and at most 30,000 rows; the rows
in issue order are the endpoint ids of the list in their order, each paired
with the id of the event; 65,000 ids give chunks of 30,000, 30,000 and 5,000
rows and no ids give no chunk. -/
theorem chunking_partitions_endpoints {ι : Type} (w : Bool) (env : TxEnv) (event : Event ι)
    (endpoints eps : List String) (r : WriteResult ι)
    (hexec : env.exec = none) (hne : ∀ k, env.namedExec k = none)
    (hr : (r = (CreateEvent (.ok w) env event).2 ∧ eps = event.Endpoints) ∨
      (r = UpdateEventEndpoints (.ok w) env event endpoints ∧ eps = endpoints)) :
    (issuedChunks r.calls).length = (eps.length + PartitionSize - 1) / PartitionSize ∧
    (∀ c ∈ issuedChunks r.calls, 0 < c.length ∧ c.length ≤ PartitionSize) ∧
    (issuedChunks r.calls).flatten.map EventEndpoint.EndpointID = eps ∧
    (∀ c ∈ issuedChunks r.calls, ∀ row ∈ c, row.EventID = event.UID) ∧
    (eps.length = 65000 → (issuedChunks r.calls).map List.length = [30000, 30000, 5000]) ∧
    (eps.length = 0 → issuedChunks r.calls = []) := by
  obtain ⟨stmt, hstmt⟩ := writer_cases w env event endpoints eps r hr
  rw [hstmt, issuedChunks_all_ok stmt w env event.UID eps hexec hne]
  refine ⟨?_, ?_, ?_, ?_, ?_, ?_⟩
  · rw [List.length_map, chunkList_length]
  · intro c hc
    obtain ⟨c', hc', rfl⟩ := List.mem_map.mp hc
    rw [List.length_map]
    exact chunkList_sizes PartitionSize PartitionSize_pos eps _ 0 rfl c' hc'
  · have hj := chunkList_join PartitionSize PartitionSize_pos eps _ 0 rfl
    rw [List.drop_zero] at hj
    conv_rhs => rw [← hj]
    rw [← List.map_flatten, List.map_map]
    simp [Function.comp_def]
  · intro c hc row hrow
    obtain ⟨c', _, rfl⟩ := List.mem_map.mp hc
    obtain ⟨x, _, rfl⟩ := List.mem_map.mp hrow
    rfl
  · intro h65
    rw [List.map_map]
    have := chunkList_lengths_65000 eps h65
    simpa [Function.comp_def] using this
  · intro h0
    rw [chunkList_done _ _ _ _ _ (by omega)]
    rfl

theorem first_failure (ne : Nat → Option Err) (N : Nat) (h : ¬ ∀ k, k < N → ne k = none) :
    ∃ k e, k < N ∧ (∀ m, m < k → ne m = none) ∧ ne k = some e := by
  classical
  have hex : ∃ k, k < N ∧ ne k ≠ none := by
    by_contra hcon
    apply h
    intro k hk
    by_contra hk2
    exact hcon ⟨k, hk, hk2⟩
  refine ⟨Nat.find hex, ?_⟩
  have hspec := Nat.find_spec hex
  cases hv : ne (Nat.find hex) with
  | none => exact absurd hv hspec.2
  | some e =>
    refine ⟨e, hspec.1, ?_, rfl⟩
    intro m hm
    by_contra hm2
    exact Nat.find_min hex hm ⟨lt_trans hm hspec.1, hm2⟩

theorem getLast_exec_cons {ι : Type} (stmt : String) (l : List (TxCall ι)) (c : TxCall ι) :
    (TxCall.ExecContext stmt :: (l ++ [c])).getLast? = some c := by
  rw [← List.cons_append, List.getLast?_append]
  simp

theorem commit_not_mem_calls {ι : Type} (stmt : String) (uid : ι) (cs : List (List String))
    (tail : List (TxCall ι)) (ht : TxCall.Commit ∉ tail) :
    TxCall.Commit ∉ TxCall.ExecContext stmt :: (cs.map (chunkCall uid) ++ tail) := by
  intro h
  rcases List.mem_cons.mp h with h | h
  · cases h
  · rcases List.mem_append.mp h with h | h
    · exact commit_not_mem_chunkCalls uid cs h
    · exact ht h

theorem rollback_not_mem_calls {ι : Type} (stmt : String) (uid : ι) (cs : List (List String))
    (tail : List (TxCall ι)) (ht : TxCall.Rollback ∉ tail) :
    TxCall.Rollback ∉ TxCall.ExecContext stmt :: (cs.map (chunkCall uid) ++ tail) := by
  intro h
  rcases List.mem_cons.mp h with h | h
  · cases h
  · rcases List.mem_append.mp h with h | h
    · exact rollback_not_mem_chunkCalls uid cs h
    · exact ht h

theorem issuedChunks_calls {ι : Type} (stmt : String) (uid : ι) (cs : List (List String))
    (tail : List (TxCall ι)) (ht : issuedChunks tail = []) :
    issuedChunks (TxCall.ExecContext stmt :: (cs.map (chunkCall uid) ++ tail)) =
      cs.map fun c => c.map fun endpointID =>
        ({ EventID := uid, EndpointID := endpointID } : EventEndpoint ι) := by
  show issuedChunks (cs.map (chunkCall uid) ++ tail) = _
  rw [issuedChunks_append, issuedChunks_chunkCalls, ht, List.append_nil]

/-- C3: with a transaction supplied by the caller (wrapped), neither writer
calls Commit or Rollback on it, whatever the statements answer.  With a
transaction the writer opened itself, the writer calls Commit exactly when
the event statement and each of the `ceil(n / 30000)` association statements
succeed, and on every return path Rollback is its last call. -/
theorem writer_commit_rollback_ownership {ι : Type} (w : Bool) (env : TxEnv) (event : Event ι)
    (endpoints eps : List String) (r : WriteResult ι)
    (hr : (r = (CreateEvent (.ok w) env event).2 ∧ eps = event.Endpoints) ∨
      (r = UpdateEventEndpoints (.ok w) env event endpoints ∧ eps = endpoints)) :
    (w = true → TxCall.Commit ∉ r.calls ∧ TxCall.Rollback ∉ r.calls) ∧
    (w = false →
      (TxCall.Commit ∈ r.calls ↔
        (env.exec = none ∧
          ∀ k, k < (eps.length + PartitionSize - 1) / PartitionSize → env.namedExec k = none)) ∧
      TxCall.Rollback ∈ r.calls ∧ r.calls.getLast? = some TxCall.Rollback) := by
  obtain ⟨stmt, hstmt⟩ := writer_cases w env event endpoints eps r hr
  subst hstmt
  clear hr
  cases hexec : env.exec with
  | some e =>
    rw [writeCalls_exec_fail stmt w env event.UID eps e hexec]
    constructor
    · intro hw; subst hw; simp
    · intro hw; subst hw; simp
  | none =>
    by_cases hall : ∀ k, k < (eps.length + PartitionSize - 1) / PartitionSize → env.namedExec k = none
    · rw [writeCalls_all_ok stmt w env event.UID eps hexec hall]
      constructor
      · intro hw; subst hw
        exact ⟨commit_not_mem_calls stmt _ _ _ (by simp), rollback_not_mem_calls stmt _ _ _ (by simp)⟩
      · intro hw; subst hw
        refine ⟨⟨fun _ => ⟨rfl, hall⟩, fun _ => by simp⟩, by simp, ?_⟩
        have := getLast_exec_cons stmt
            ((chunkList PartitionSize PartitionSize_pos eps 0 0).map (chunkCall event.UID) ++
              [TxCall.Commit]) (TxCall.Rollback : TxCall ι)
        simpa using this
    · obtain ⟨k, e, hk, hbefore, hat⟩ := first_failure env.namedExec _ hall
      rw [writeCalls_chunk_fail stmt w env event.UID eps e k hexec hk hbefore hat]
      constructor
      · intro hw; subst hw
        exact ⟨commit_not_mem_calls stmt _ _ _ (by simp), rollback_not_mem_calls stmt _ _ _ (by simp)⟩
      · intro hw; subst hw
        refine ⟨⟨fun hm => ?_, fun hh => absurd hh.2 hall⟩, by simp, ?_⟩
        · exact absurd hm (commit_not_mem_calls stmt _ _ _ (by simp))
        · exact getLast_exec_cons stmt _ _

/-- C5: when the event statement fails with `e`, or association statement `k`
is the first to fail and fails with `e`, either writer returns `e`; in the
first case it issues no association statement, in the second the statements
for chunks `0` to `k` and none for a later chunk; it does not call Commit;
when it opened the transaction itself its last call is Rollback, and when
the transaction is wrapped it does not call Rollback; the call sequence
leaves no association row committed. -/
theorem writer_failure_aborts {ι : Type} (w : Bool) (env : TxEnv) (event : Event ι)
    (endpoints eps : List String) (r : WriteResult ι) (e : Err)
    (hr : (r = (CreateEvent (.ok w) env event).2 ∧ eps = event.Endpoints) ∨
      (r = UpdateEventEndpoints (.ok w) env event endpoints ∧ eps = endpoints)) :
    (env.exec = some e →
      r.err = some e ∧ issuedChunks r.calls = [] ∧ TxCall.Commit ∉ r.calls ∧
      (w = false → r.calls.getLast? = some TxCall.Rollback) ∧
      (w = true → TxCall.Rollback ∉ r.calls) ∧
      committedRows r.calls [] = []) ∧
    (∀ k, env.exec = none → k < (eps.length + PartitionSize - 1) / PartitionSize →
      (∀ m, m < k → env.namedExec m = none) → env.namedExec k = some e →
      r.err = some e ∧
      (issuedChunks r.calls).map (List.map EventEndpoint.EndpointID) =
        (chunkList PartitionSize PartitionSize_pos eps 0 0).take (k + 1) ∧
      (issuedChunks r.calls).length = k + 1 ∧
      TxCall.Commit ∉ r.calls ∧
      (w = false → r.calls.getLast? = some TxCall.Rollback) ∧
      (w = true → TxCall.Rollback ∉ r.calls) ∧
      committedRows r.calls [] = []) := by
  obtain ⟨stmt, hstmt⟩ := writer_cases w env event endpoints eps r hr
  subst hstmt
  clear hr
  constructor
  · intro hexec
    rw [writeCalls_exec_fail stmt w env event.UID eps e hexec]
    have hc : TxCall.Commit ∉
        (TxCall.ExecContext stmt :: (if !w then [TxCall.Rollback] else []) : List (TxCall ι)) := by
      cases w <;> simp
    refine ⟨rfl, ?_, hc, ?_, ?_, committedRows_of_no_commit _ _ hc⟩
    · cases w <;> simp [issuedChunks]
    · intro hw; subst hw; simp
    · intro hw; subst hw; simp
  · intro k hexec hk hbefore hat
    rw [writeCalls_chunk_fail stmt w env event.UID eps e k hexec hk hbefore hat]
    have ht : TxCall.Commit ∉ (if w then [] else [TxCall.Rollback] : List (TxCall ι)) := by
      cases w <;> simp
    have hti : issuedChunks (if w then [] else [TxCall.Rollback] : List (TxCall ι)) = [] := by
      cases w <;> simp [issuedChunks]
    have hc := commit_not_mem_calls stmt event.UID
      ((chunkList PartitionSize PartitionSize_pos eps 0 0).take (k + 1)) _ ht
    have hlen : k + 1 ≤ (chunkList PartitionSize PartitionSize_pos eps 0 0).length := by
      rw [chunkList_length]; omega
    refine ⟨rfl, ?_, ?_, hc, ?_, ?_, committedRows_of_no_commit _ _ hc⟩
    · simp only [issuedChunks_calls stmt event.UID _ _ hti, List.map_map]
      simp [Function.comp_def]
    · simp only [issuedChunks_calls stmt event.UID _ _ hti, List.length_map, List.length_take]
      omega
    · intro hw; subst hw
      exact getLast_exec_cons stmt _ _
    · intro hw; subst hw
      exact rollback_not_mem_calls stmt _ _ _ (by simp)

/-! ## The rendered statements -/

namespace LoadEventsPaged

variable {ι : Type}

theorem prev_ne_next : ¬ (Prev = Next) := by decide

set_option maxRecDepth 100000 in
theorem sprintf_forward_desc (b fq pre so : String) :
    fmtSprintf (getFwdEventPageQuery "DESC") [b, fq, pre, so] =
      pageStatement b fq "<=" "    " pre so := rfl

set_option maxRecDepth 100000 in
theorem sprintf_forward_asc (b fq pre so : String) :
    fmtSprintf (getFwdEventPageQuery "ASC") [b, fq, pre, so] =
      pageStatement b fq ">=" "    " pre so := rfl

set_option maxRecDepth 100000 in
theorem sprintf_backward_desc (b fq pre so : String) :
    fmtSprintf (getBackwardEventPageQuery "DESC") [b, fq, pre, so] =
      pageStatement b fq ">=" "\t" pre so := rfl

set_option maxRecDepth 100000 in
theorem sprintf_backward_asc (b fq pre so : String) :
    fmtSprintf (getBackwardEventPageQuery "ASC") [b, fq, pre, so] =
      pageStatement b fq "<=" "\t" pre so := rfl

set_option maxRecDepth 100000 in
theorem tmp_desc (f : Filter ι) (ho : f.Pageable.Order = SortDir.DESC) :
    tmp f = " AND ev.id " ++ (">" ++ (" :cursor GROUP BY ev.id ORDER BY ev.id " ++
      ("DESC" ++ " LIMIT 1"))) := by
  unfold tmp Pageable.SortOrder
  rw [ho]
  rfl

set_option maxRecDepth 100000 in
theorem tmp_asc (f : Filter ι) (ho : f.Pageable.Order = SortDir.ASC) :
    tmp f = " AND ev.id " ++ ("<" ++ (" :cursor GROUP BY ev.id ORDER BY ev.id " ++
      ("ASC" ++ " LIMIT 1"))) := by
  unfold tmp Pageable.SortOrder
  rw [ho]
  rfl

theorem query_desc_next (f : Filter ι) (ho : f.Pageable.Order = SortDir.DESC)
    (hd : f.Pageable.Direction = Next) :
    query f = pageStatement (base f) (filterQuery f) "<=" "    " "DESC" "DESC" := by
  unfold query baseQueryPagination preOrder Pageable.SortOrder
  rw [ho, hd]
  simp only [if_true, if_neg (Ne.symm prev_ne_next)]
  exact sprintf_forward_desc _ _ _ _

theorem query_desc_prev (f : Filter ι) (ho : f.Pageable.Order = SortDir.DESC)
    (hd : f.Pageable.Direction = Prev) :
    query f = pageStatement (base f) (filterQuery f) ">=" "\t" "ASC" "DESC" := by
  unfold query baseQueryPagination preOrder Pageable.SortOrder
  rw [ho, hd]
  simp only [if_true, if_neg prev_ne_next]
  exact sprintf_backward_desc _ _ _ _

theorem query_asc_next (f : Filter ι) (ho : f.Pageable.Order = SortDir.ASC)
    (hd : f.Pageable.Direction = Next) :
    query f = pageStatement (base f) (filterQuery f) ">=" "    " "ASC" "ASC" := by
  unfold query baseQueryPagination preOrder Pageable.SortOrder
  rw [ho, hd]
  simp only [if_true, if_neg (Ne.symm prev_ne_next)]
  exact sprintf_forward_asc _ _ _ _

theorem query_asc_prev (f : Filter ι) (ho : f.Pageable.Order = SortDir.ASC)
    (hd : f.Pageable.Direction = Prev) :
    query f = pageStatement (base f) (filterQuery f) "<=" "\t" "DESC" "ASC" := by
  unfold query baseQueryPagination preOrder Pageable.SortOrder
  rw [ho, hd]
  simp only [if_true, if_neg prev_ne_next]
  exact sprintf_backward_asc _ _ _ _

set_option maxRecDepth 100000 in
theorem filterQuery_eq_filterPart (f : Filter ι) :
    filterQuery f =
      filterPart (decide (f.SourceIDs.length > 0)) (decide (f.EndpointIDs.length > 0))
        (!IsStringEmpty f.Query) := by
  unfold filterQuery filterPart
  by_cases h1 : f.SourceIDs.length > 0 <;> by_cases h2 : f.EndpointIDs.length > 0 <;>
    cases h3 : IsStringEmpty f.Query <;>
    simp only [h1, h2, if_true, if_false, Bool.not_true, Bool.not_false, Bool.false_eq_true,
      decide_True, decide_False] <;>
    decide

theorem base_eq (f : Filter ι) :
    base f = if (!IsStringEmpty f.Query) = true then baseEventsSearch else baseEventsPaged := rfl

set_option maxRecDepth 100000 in
set_option maxHeartbeats 4000000 in
theorem reading_desc_next :
    ∀ s e q : Bool,
      cursorBoundOf (pageStatement (if q = true then baseEventsSearch else baseEventsPaged)
          (filterPart s e q) "<=" "    " "DESC" "DESC") = some Cmp.le ∧
        innerOrderOf (pageStatement (if q = true then baseEventsSearch else baseEventsPaged)
          (filterPart s e q) "<=" "    " "DESC" "DESC") = some SortDir.DESC ∧
        outerOrderOf (pageStatement (if q = true then baseEventsSearch else baseEventsPaged)
          (filterPart s e q) "<=" "    " "DESC" "DESC") = some SortDir.DESC := by
  intro s e q
  cases s <;> cases e <;> cases q <;> decide

set_option maxRecDepth 100000 in
set_option maxHeartbeats 4000000 in
theorem reading_desc_prev :
    ∀ s e q : Bool,
      cursorBoundOf (pageStatement (if q = true then baseEventsSearch else baseEventsPaged)
          (filterPart s e q) ">=" "\t" "ASC" "DESC") = some Cmp.ge ∧
        innerOrderOf (pageStatement (if q = true then baseEventsSearch else baseEventsPaged)
          (filterPart s e q) ">=" "\t" "ASC" "DESC") = some SortDir.ASC ∧
        outerOrderOf (pageStatement (if q = true then baseEventsSearch else baseEventsPaged)
          (filterPart s e q) ">=" "\t" "ASC" "DESC") = some SortDir.DESC := by
  intro s e q
  cases s <;> cases e <;> cases q <;> decide

set_option maxRecDepth 100000 in
set_option maxHeartbeats 4000000 in
theorem reading_asc_next :
    ∀ s e q : Bool,
      cursorBoundOf (pageStatement (if q = true then baseEventsSearch else baseEventsPaged)
          (filterPart s e q) ">=" "    " "ASC" "ASC") = some Cmp.ge ∧
        innerOrderOf (pageStatement (if q = true then baseEventsSearch else baseEventsPaged)
          (filterPart s e q) ">=" "    " "ASC" "ASC") = some SortDir.ASC ∧
        outerOrderOf (pageStatement (if q = true then baseEventsSearch else baseEventsPaged)
          (filterPart s e q) ">=" "    " "ASC" "ASC") = some SortDir.ASC := by
  intro s e q
  cases s <;> cases e <;> cases q <;> decide

set_option maxRecDepth 100000 in
set_option maxHeartbeats 4000000 in
theorem reading_asc_prev :
    ∀ s e q : Bool,
      cursorBoundOf (pageStatement (if q = true then baseEventsSearch else baseEventsPaged)
          (filterPart s e q) "<=" "\t" "DESC" "ASC") = some Cmp.le ∧
        innerOrderOf (pageStatement (if q = true then baseEventsSearch else baseEventsPaged)
          (filterPart s e q) "<=" "\t" "DESC" "ASC") = some SortDir.DESC ∧
        outerOrderOf (pageStatement (if q = true then baseEventsSearch else baseEventsPaged)
          (filterPart s e q) "<=" "\t" "DESC" "ASC") = some SortDir.ASC := by
  intro s e q
  cases s <;> cases e <;> cases q <;> decide

set_option maxRecDepth 100000 in
set_option maxHeartbeats 4000000 in
theorem prev_reading :
    ∀ s e q : Bool,
      cursorBoundOf (prevRowStatement
          (if q = true then baseCountPrevEventSearch else baseCountPrevEvents)
          (filterPart s e q) ">" "DESC") = some Cmp.gt ∧
      cursorBoundOf (prevRowStatement
          (if q = true then baseCountPrevEventSearch else baseCountPrevEvents)
          (filterPart s e q) "<" "ASC") = some Cmp.lt := by
  intro s e q
  cases s <;> cases e <;> cases q <;> decide

/-! ## Trimming and the engine -/

theorem trim_prefix {α : Type} (p : Int) (evs out : List α) (h : trim p evs = some out) :
    out <+: evs := by
  unfold trim at h
  split at h
  · split at h
    · cases h
    · cases h
      exact List.take_prefix _ _
  · cases h
    exact List.prefix_refl _

theorem trim_nonneg {α : Type} (p : Int) (evs : List α) (hp : 0 ≤ p) :
    trim p evs = some (if (evs.length : Int) > p then evs.take (evs.length - 1) else evs) := by
  unfold trim
  split
  · rename_i h
    have : evs.length ≠ 0 := by
      intro h0
      rw [h0] at h
      simp at h
      omega
    rw [if_neg this]
  · rfl

theorem outcome_ok (db : PageDb ι) (f : Filter ι) (a : QueryArgs ι)
    (fetched : Except Err (List (Event ι))) (page : Page ι)
    (h : outcome db f a fetched = Outcome.ok page) :
    ∃ evs, fetched = .ok evs ∧ trim f.Pageable.PerPage evs = some page.events ∧
      page.ids = evs.map Event.UID := by
  have hfin : ∀ evs rc, finish f evs rc = Outcome.ok page →
      trim f.Pageable.PerPage evs = some page.events ∧ page.ids = evs.map Event.UID := by
    intro evs rc hf
    unfold finish at hf
    cases ht : trim f.Pageable.PerPage evs with
    | none => rw [ht] at hf; cases hf
    | some out =>
      rw [ht] at hf
      simp only [Outcome.ok.injEq] at hf
      subst hf
      exact ⟨rfl, rfl⟩
  cases fetched with
  | error e => simp [outcome] at h
  | ok evs =>
    refine ⟨evs, rfl, ?_⟩
    cases evs with
    | nil => exact hfin [] _ h
    | cons first rest =>
      simp only [outcome] at h
      split at h
      · cases h
      · exact hfin _ _ h
      · exact hfin _ _ h

theorem outcome_not_panic (db : PageDb ι) (f : Filter ι) (a : QueryArgs ι)
    (fetched : Except Err (List (Event ι))) (hp : 0 ≤ f.Pageable.PerPage) :
    outcome db f a fetched ≠ Outcome.panic := by
  have hfin : ∀ evs rc, finish f evs rc ≠ Outcome.panic := by
    intro evs rc hf
    unfold finish at hf
    rw [trim_nonneg _ _ hp] at hf
    cases hf
  cases fetched with
  | error e => simp [outcome]
  | ok evs =>
    cases evs with
    | nil => exact hfin [] _
    | cons first rest =>
      simp only [outcome]
      split
      · simp
      · exact hfin _ _
      · exact hfin _ _


end LoadEventsPaged

/-! ## The engine over a store -/

section Engine

variable {ι : Type} [LinearOrder ι]

theorem orderBy_length (o : SortDir) (rows : List (Event ι)) :
    (orderBy o rows).length = rows.length := by
  cases o <;> exact List.length_insertionSort _ _

theorem orderBy_mem (o : SortDir) (rows : List (Event ι)) (e : Event ι) :
    e ∈ orderBy o rows ↔ e ∈ rows := by
  cases o <;> exact List.mem_insertionSort _

theorem orderBy_desc_sorted (rows : List (Event ι)) :
    (orderBy SortDir.DESC rows).Pairwise (fun a b => b.UID ≤ a.UID) :=
  @List.sorted_insertionSort (Event ι) (fun a b => b.UID ≤ a.UID) _
    ⟨fun a b => le_total b.UID a.UID⟩ ⟨fun _ _ _ h1 h2 => le_trans h2 h1⟩ rows

theorem orderBy_asc_sorted (rows : List (Event ι)) :
    (orderBy SortDir.ASC rows).Pairwise (fun a b => a.UID ≤ b.UID) :=
  @List.sorted_insertionSort (Event ι) (fun a b => a.UID ≤ b.UID) _
    ⟨fun a b => le_total a.UID b.UID⟩ ⟨fun _ _ _ h1 h2 => le_trans h1 h2⟩ rows

theorem pg_queryPage_ok (rows : List (Event ι)) (q : String) (a : QueryArgs ι)
    (out : List (Event ι)) (h : Pg.queryPage rows q a = .ok out) :
    ∃ op pre ord, cursorBoundOf q = some op ∧ innerOrderOf q = some pre ∧
      outerOrderOf q = some ord ∧ 0 ≤ a.limit ∧
      out = orderBy ord ((orderBy pre (rows.filter fun e => op.test e.UID a.cursor)).take
        a.limit.toNat) := by
  unfold Pg.queryPage at h
  split at h
  · rename_i op pre ord h1 h2 h3
    split at h
    · cases h
    · rename_i hl
      refine ⟨op, pre, ord, h1, h2, h3, by omega, ?_⟩
      cases h
      rfl
  · cases h

theorem pg_respects_limit (rows : List (Event ι)) (q : String) (a : QueryArgs ι)
    (out : List (Event ι)) (h : (pg rows).queryPage q a = .ok out) :
    (out.length : Int) ≤ a.limit := by
  obtain ⟨op, pre, ord, _, _, _, hl, rfl⟩ := pg_queryPage_ok rows q a out h
  rw [orderBy_length, List.length_take]
  omega

end Engine

theorem mergeEndpointID_Pageable {ι : Type} (f : Filter ι) :
    (LoadEventsPaged.mergeEndpointID f).Pageable = f.Pageable := by
  unfold LoadEventsPaged.mergeEndpointID
  split <;> rfl

theorem mergeEndpointID_Query {ι : Type} (f : Filter ι) :
    (LoadEventsPaged.mergeEndpointID f).Query = f.Query := by
  unfold LoadEventsPaged.mergeEndpointID
  split <;> rfl

theorem mergeEndpointID_SourceIDs {ι : Type} (f : Filter ι) :
    (LoadEventsPaged.mergeEndpointID f).SourceIDs = f.SourceIDs := by
  unfold LoadEventsPaged.mergeEndpointID
  split <;> rfl

theorem mergeEndpointID_EndpointIDs {ι : Type} (f : Filter ι) :
    (LoadEventsPaged.mergeEndpointID f).EndpointIDs =
      f.EndpointIDs ++ (if IsStringEmpty f.EndpointID = true then [] else [f.EndpointID]) := by
  unfold LoadEventsPaged.mergeEndpointID
  cases IsStringEmpty f.EndpointID <;> simp

/-! ## Pages -/

/-- C4: for a filter with a per-page size of at least zero and a database
whose page statement returns at most `:limit` rows, the limit bound to the
page statement is per-page + 1 and a page `LoadEventsPaged` returns has at
most per-page events: the trim step drops exactly the last fetched row when
more than per-page rows were fetched and no row otherwise. -/
theorem page_within_per_page {ι : Type} (db : PageDb ι) (projectID : String) (f : Filter ι)
    (page : Page ι) (hp : 0 ≤ f.Pageable.PerPage)
    (hdb : ∀ q a rows, db.queryPage q a = .ok rows → (rows.length : Int) ≤ a.limit)
    (hok : (LoadEventsPaged db projectID f).outcome = Outcome.ok page) :
    (LoadEventsPaged db projectID f).args.limit = f.Pageable.PerPage + 1 ∧
    (page.events.length : Int) ≤ f.Pageable.PerPage ∧
    ∃ fetched,
      db.queryPage (LoadEventsPaged db projectID f).query (LoadEventsPaged db projectID f).args =
        .ok fetched ∧
      ((fetched.length : Int) > f.Pageable.PerPage →
        page.events = fetched.take (fetched.length - 1) ∧
          page.events.length + 1 = fetched.length) ∧
      ((fetched.length : Int) ≤ f.Pageable.PerPage → page.events = fetched) := by
  have hlim : (LoadEventsPaged db projectID f).args.limit = f.Pageable.PerPage + 1 := by
    show (LoadEventsPaged.mergeEndpointID f).Pageable.Limit = _
    rw [mergeEndpointID_Pageable]
    rfl
  obtain ⟨fetched, hf, ht, _⟩ := LoadEventsPaged.outcome_ok db _ _ _ page hok
  rw [mergeEndpointID_Pageable, LoadEventsPaged.trim_nonneg _ _ hp] at ht
  have hbound := hdb _ _ fetched hf
  have hbound' : (fetched.length : Int) ≤ f.Pageable.PerPage + 1 := by
    have : (LoadEventsPaged.arg projectID (LoadEventsPaged.mergeEndpointID f)).limit =
        f.Pageable.PerPage + 1 := hlim
    rw [this] at hbound
    exact hbound
  simp only [Option.some.injEq] at ht
  refine ⟨hlim, ?_, fetched, hf, ?_, ?_⟩
  · rw [← ht]
    split
    · rw [List.length_take]; omega
    · omega
  · intro hgt
    rw [← ht, if_pos hgt]
    refine ⟨rfl, ?_⟩
    rw [List.length_take]
    omega
  · intro hle
    rw [← ht, if_neg (by omega)]

/-- C7 (amended): for sort order desc and direction prev, over every store
content, per-page size and cursor `c`, each event of a page
`LoadEventsPaged` returns is a row of the store with an id greater than or
equal to `c`, and the page is in descending id order. -/
theorem prev_page_desc_within_cursor {ι : Type} [LinearOrder ι] (rows : List (Event ι))
    (projectID : String) (f : Filter ι) (page : Page ι)
    (ho : f.Pageable.Order = SortDir.DESC) (hd : f.Pageable.Direction = Prev)
    (hok : (LoadEventsPaged (pg rows) projectID f).outcome = Outcome.ok page) :
    (∀ e ∈ page.events, f.Pageable.Cursor ≤ e.UID ∧ e ∈ rows) ∧
    page.events.Pairwise (fun a b => b.UID ≤ a.UID) := by
  obtain ⟨fetched, hf, ht, _⟩ := LoadEventsPaged.outcome_ok _ _ _ _ page hok
  have hpre := LoadEventsPaged.trim_prefix _ _ _ ht
  obtain ⟨op, pre, ord, h1, h2, h3, _, hout⟩ := pg_queryPage_ok rows _ _ fetched hf
  have hq := LoadEventsPaged.query_desc_prev (LoadEventsPaged.mergeEndpointID f)
    (by rw [mergeEndpointID_Pageable]; exact ho) (by rw [mergeEndpointID_Pageable]; exact hd)
  rw [hq, LoadEventsPaged.filterQuery_eq_filterPart, LoadEventsPaged.base_eq] at h1 h2 h3
  obtain ⟨r1, r2, r3⟩ := LoadEventsPaged.reading_desc_prev
    (decide ((LoadEventsPaged.mergeEndpointID f).SourceIDs.length > 0))
    (decide ((LoadEventsPaged.mergeEndpointID f).EndpointIDs.length > 0))
    (!IsStringEmpty (LoadEventsPaged.mergeEndpointID f).Query)
  rw [r1] at h1
  rw [r2] at h2
  rw [r3] at h3
  cases h1
  cases h2
  cases h3
  have hcur : (LoadEventsPaged.arg projectID (LoadEventsPaged.mergeEndpointID f)).cursor =
      f.Pageable.Cursor := by
    show (LoadEventsPaged.mergeEndpointID f).Pageable.Cursor = _
    rw [mergeEndpointID_Pageable]
  rw [hcur] at hout
  constructor
  · intro e he
    have he1 : e ∈ fetched := hpre.subset he
    rw [hout, orderBy_mem] at he1
    have he2 := List.mem_of_mem_take he1
    rw [orderBy_mem, List.mem_filter] at he2
    refine ⟨?_, he2.1⟩
    simpa [Cmp.test] using he2.2
  · have hs : fetched.Pairwise (fun a b => b.UID ≤ a.UID) := by
      rw [hout]
      exact orderBy_desc_sorted _
    exact hs.sublist hpre.sublist
/-! ## Rendering of the page statement and of the previous-row statement -/

theorem cq_desc {ι : Type} (f : Filter ι) (ho : f.Pageable.Order = SortDir.DESC) :
    LoadEventsPaged.cq f =
      prevRowStatement (LoadEventsPaged.baseCountEvents f) (LoadEventsPaged.filterQuery f)
        ">" "DESC" := by
  unfold LoadEventsPaged.cq prevRowStatement
  rw [LoadEventsPaged.tmp_desc f ho]

theorem cq_asc {ι : Type} (f : Filter ι) (ho : f.Pageable.Order = SortDir.ASC) :
    LoadEventsPaged.cq f =
      prevRowStatement (LoadEventsPaged.baseCountEvents f) (LoadEventsPaged.filterQuery f)
        "<" "ASC" := by
  unfold LoadEventsPaged.cq prevRowStatement
  rw [LoadEventsPaged.tmp_asc f ho]

theorem baseCountEvents_eq {ι : Type} (f : Filter ι) :
    LoadEventsPaged.baseCountEvents f =
      if (!IsStringEmpty f.Query) = true then baseCountPrevEventSearch else baseCountPrevEvents :=
  rfl

theorem query_truth_table {ι : Type} (f : Filter ι) :
    (f.Pageable.Order = SortDir.DESC → f.Pageable.Direction = Next →
      LoadEventsPaged.query f =
          pageStatement (LoadEventsPaged.base f)
            (LoadEventsPaged.filterQuery f)
            "<=" "    " "DESC" "DESC" ∧
        cursorBoundOf (LoadEventsPaged.query f) = some Cmp.le ∧
        innerOrderOf (LoadEventsPaged.query f) = some SortDir.DESC ∧
        outerOrderOf (LoadEventsPaged.query f) = some SortDir.DESC) ∧
    (f.Pageable.Order = SortDir.DESC → f.Pageable.Direction = Prev →
      LoadEventsPaged.query f =
          pageStatement (LoadEventsPaged.base f)
            (LoadEventsPaged.filterQuery f)
            ">=" "\t" "ASC" "DESC" ∧
        cursorBoundOf (LoadEventsPaged.query f) = some Cmp.ge ∧
        innerOrderOf (LoadEventsPaged.query f) = some SortDir.ASC ∧
        outerOrderOf (LoadEventsPaged.query f) = some SortDir.DESC) ∧
    (f.Pageable.Order = SortDir.ASC → f.Pageable.Direction = Next →
      LoadEventsPaged.query f =
          pageStatement (LoadEventsPaged.base f)
            (LoadEventsPaged.filterQuery f)
            ">=" "    " "ASC" "ASC" ∧
        cursorBoundOf (LoadEventsPaged.query f) = some Cmp.ge ∧
        innerOrderOf (LoadEventsPaged.query f) = some SortDir.ASC ∧
        outerOrderOf (LoadEventsPaged.query f) = some SortDir.ASC) ∧
    (f.Pageable.Order = SortDir.ASC → f.Pageable.Direction = Prev →
      LoadEventsPaged.query f =
          pageStatement (LoadEventsPaged.base f)
            (LoadEventsPaged.filterQuery f)
            "<=" "\t" "DESC" "ASC" ∧
        cursorBoundOf (LoadEventsPaged.query f) = some Cmp.le ∧
        innerOrderOf (LoadEventsPaged.query f) = some SortDir.DESC ∧
        outerOrderOf (LoadEventsPaged.query f) = some SortDir.ASC) := by
  refine ⟨?_, ?_, ?_, ?_⟩ <;> intro ho hd
  · have hq := LoadEventsPaged.query_desc_next f ho hd
    refine ⟨hq, ?_⟩
    rw [hq, LoadEventsPaged.filterQuery_eq_filterPart, LoadEventsPaged.base_eq]
    exact LoadEventsPaged.reading_desc_next _ _ _
  · have hq := LoadEventsPaged.query_desc_prev f ho hd
    refine ⟨hq, ?_⟩
    rw [hq, LoadEventsPaged.filterQuery_eq_filterPart, LoadEventsPaged.base_eq]
    exact LoadEventsPaged.reading_desc_prev _ _ _
  · have hq := LoadEventsPaged.query_asc_next f ho hd
    refine ⟨hq, ?_⟩
    rw [hq, LoadEventsPaged.filterQuery_eq_filterPart, LoadEventsPaged.base_eq]
    exact LoadEventsPaged.reading_asc_next _ _ _
  · have hq := LoadEventsPaged.query_asc_prev f ho hd
    refine ⟨hq, ?_⟩
    rw [hq, LoadEventsPaged.filterQuery_eq_filterPart, LoadEventsPaged.base_eq]
    exact LoadEventsPaged.reading_asc_prev _ _ _

/-- C1: for each of the four combinations of sort order and direction the
page statement `LoadEventsPaged` renders is the statement of the truth table:
(desc, next) bounds `ev.id <= :cursor` with pre-order DESC, (desc, prev)
bounds `ev.id >= :cursor` with pre-order ASC, (asc, next) bounds
`ev.id >= :cursor` with pre-order ASC, (asc, prev) bounds `ev.id <= :cursor`
with pre-order DESC; in each the final `ORDER BY` is the configured sort
order, and the engine reads the bound and the two orders so. -/
theorem page_query_truth_table {ι : Type} (db : PageDb ι) (projectID : String) (f : Filter ι) :
    (f.Pageable.Order = SortDir.DESC → f.Pageable.Direction = Next →
      (LoadEventsPaged db projectID f).query =
          pageStatement (LoadEventsPaged.base (LoadEventsPaged db projectID f).filter)
            (LoadEventsPaged.filterQuery (LoadEventsPaged db projectID f).filter)
            "<=" "    " "DESC" "DESC" ∧
        cursorBoundOf (LoadEventsPaged db projectID f).query = some Cmp.le ∧
        innerOrderOf (LoadEventsPaged db projectID f).query = some SortDir.DESC ∧
        outerOrderOf (LoadEventsPaged db projectID f).query = some SortDir.DESC) ∧
    (f.Pageable.Order = SortDir.DESC → f.Pageable.Direction = Prev →
      (LoadEventsPaged db projectID f).query =
          pageStatement (LoadEventsPaged.base (LoadEventsPaged db projectID f).filter)
            (LoadEventsPaged.filterQuery (LoadEventsPaged db projectID f).filter)
            ">=" "\t" "ASC" "DESC" ∧
        cursorBoundOf (LoadEventsPaged db projectID f).query = some Cmp.ge ∧
        innerOrderOf (LoadEventsPaged db projectID f).query = some SortDir.ASC ∧
        outerOrderOf (LoadEventsPaged db projectID f).query = some SortDir.DESC) ∧
    (f.Pageable.Order = SortDir.ASC → f.Pageable.Direction = Next →
      (LoadEventsPaged db projectID f).query =
          pageStatement (LoadEventsPaged.base (LoadEventsPaged db projectID f).filter)
            (LoadEventsPaged.filterQuery (LoadEventsPaged db projectID f).filter)
            ">=" "    " "ASC" "ASC" ∧
        cursorBoundOf (LoadEventsPaged db projectID f).query = some Cmp.ge ∧
        innerOrderOf (LoadEventsPaged db projectID f).query = some SortDir.ASC ∧
        outerOrderOf (LoadEventsPaged db projectID f).query = some SortDir.ASC) ∧
    (f.Pageable.Order = SortDir.ASC → f.Pageable.Direction = Prev →
      (LoadEventsPaged db projectID f).query =
          pageStatement (LoadEventsPaged.base (LoadEventsPaged db projectID f).filter)
            (LoadEventsPaged.filterQuery (LoadEventsPaged db projectID f).filter)
            "<=" "\t" "DESC" "ASC" ∧
        cursorBoundOf (LoadEventsPaged db projectID f).query = some Cmp.le ∧
        innerOrderOf (LoadEventsPaged db projectID f).query = some SortDir.DESC ∧
        outerOrderOf (LoadEventsPaged db projectID f).query = some SortDir.ASC) := by
  have h := query_truth_table (LoadEventsPaged.mergeEndpointID f)
  rw [mergeEndpointID_Pageable] at h
  exact h
theorem countQuery_fetched {ι : Type} (db : PageDb ι) (projectID : String) (f : Filter ι)
    (first : Event ι) (rest : List (Event ι))
    (hf : db.queryPage (LoadEventsPaged db projectID f).query (LoadEventsPaged db projectID f).args =
      .ok (first :: rest)) :
    (LoadEventsPaged db projectID f).countQuery =
      some (LoadEventsPaged.cq (LoadEventsPaged db projectID f).filter,
        { (LoadEventsPaged db projectID f).args with cursor := first.UID }) := by
  show LoadEventsPaged.countQuery _ _ (db.queryPage (LoadEventsPaged db projectID f).query
    (LoadEventsPaged db projectID f).args) = _
  rw [hf]
  rfl

/-- C6 (amended): for every sort order and both directions, when the page
statement returned at least one row, the previous-row statement is sent with
the cursor rebound to the id of the first fetched row and asks for a row with
`ev.id > :cursor` when the sort order is DESC and `ev.id < :cursor` when it is
ASC, whatever the direction.  For direction next that is the side of the
cursor the bound of the page statement excludes; for direction prev it is the
side that bound includes, less the cursor itself. -/
theorem prev_row_query_follows_sort_order {ι : Type} [LinearOrder ι] (db : PageDb ι)
    (projectID : String) (f : Filter ι) (first : Event ι) (rest : List (Event ι))
    (hd : f.Pageable.Direction = Next ∨ f.Pageable.Direction = Prev)
    (hf : db.queryPage (LoadEventsPaged db projectID f).query (LoadEventsPaged db projectID f).args =
      .ok (first :: rest)) :
    ∃ q m p,
      (LoadEventsPaged db projectID f).countQuery =
        some (q, { (LoadEventsPaged db projectID f).args with cursor := first.UID }) ∧
      cursorBoundOf (LoadEventsPaged db projectID f).query = some m ∧
      cursorBoundOf q = some p ∧
      (f.Pageable.Order = SortDir.DESC → p = Cmp.gt ∧
        q = prevRowStatement
          (LoadEventsPaged.baseCountEvents (LoadEventsPaged db projectID f).filter)
          (LoadEventsPaged.filterQuery (LoadEventsPaged db projectID f).filter) ">" "DESC") ∧
      (f.Pageable.Order = SortDir.ASC → p = Cmp.lt ∧
        q = prevRowStatement
          (LoadEventsPaged.baseCountEvents (LoadEventsPaged db projectID f).filter)
          (LoadEventsPaged.filterQuery (LoadEventsPaged db projectID f).filter) "<" "ASC") ∧
      (f.Pageable.Direction = Next → ∀ x c : ι, p.test x c = !m.test x c) ∧
      (f.Pageable.Direction = Prev → ∀ x c : ι, p.test x c = (m.test x c && !decide (x = c))) := by
  have hcq := countQuery_fetched db projectID f first rest hf
  have htt := query_truth_table (LoadEventsPaged.mergeEndpointID f)
  rw [mergeEndpointID_Pageable] at htt
  obtain ⟨t1, t2, t3, t4⟩ := htt
  have hpr := LoadEventsPaged.prev_reading
    (decide ((LoadEventsPaged.mergeEndpointID f).SourceIDs.length > 0))
    (decide ((LoadEventsPaged.mergeEndpointID f).EndpointIDs.length > 0))
    (!IsStringEmpty (LoadEventsPaged.mergeEndpointID f).Query)
  rw [← LoadEventsPaged.filterQuery_eq_filterPart, ← baseCountEvents_eq] at hpr
  cases ho : f.Pageable.Order with
  | DESC =>
    have hq := cq_desc (LoadEventsPaged.mergeEndpointID f)
      (by rw [mergeEndpointID_Pageable]; exact ho)
    rcases hd with hd | hd
    · refine ⟨_, Cmp.le, Cmp.gt, hcq, (t1 ho hd).2.1, ?_, ?_, ?_, ?_, ?_⟩
      · exact (congrArg cursorBoundOf hq).trans hpr.1
      · intro _; exact ⟨rfl, hq⟩
      · intro h; cases h
      · intro _ x c
        simp only [Cmp.test]
        rw [Bool.eq_iff_iff]
        simp [not_le]
      · intro h; rw [hd] at h; exact absurd h.symm LoadEventsPaged.prev_ne_next
    · refine ⟨_, Cmp.ge, Cmp.gt, hcq, (t2 ho hd).2.1, ?_, ?_, ?_, ?_, ?_⟩
      · exact (congrArg cursorBoundOf hq).trans hpr.1
      · intro _; exact ⟨rfl, hq⟩
      · intro h; cases h
      · intro h; rw [hd] at h; exact absurd h LoadEventsPaged.prev_ne_next
      · intro _ x c
        simp only [Cmp.test]
        rw [Bool.eq_iff_iff]
        simp only [decide_eq_true_eq, Bool.and_eq_true, Bool.not_eq_true', decide_eq_false_iff_not]
        exact ⟨fun h => ⟨le_of_lt h, fun he => absurd h (by rw [he]; exact lt_irrefl c)⟩,
          fun h => lt_of_le_of_ne h.1 (fun he => h.2 he.symm)⟩
  | ASC =>
    have hq := cq_asc (LoadEventsPaged.mergeEndpointID f)
      (by rw [mergeEndpointID_Pageable]; exact ho)
    rcases hd with hd | hd
    · refine ⟨_, Cmp.ge, Cmp.lt, hcq, (t3 ho hd).2.1, ?_, ?_, ?_, ?_, ?_⟩
      · exact (congrArg cursorBoundOf hq).trans hpr.2
      · intro h; cases h
      · intro _; exact ⟨rfl, hq⟩
      · intro _ x c
        simp only [Cmp.test]
        rw [Bool.eq_iff_iff]
        simp [not_le]
      · intro h; rw [hd] at h; exact absurd h.symm LoadEventsPaged.prev_ne_next
    · refine ⟨_, Cmp.le, Cmp.lt, hcq, (t4 ho hd).2.1, ?_, ?_, ?_, ?_, ?_⟩
      · exact (congrArg cursorBoundOf hq).trans hpr.2
      · intro h; cases h
      · intro _; exact ⟨rfl, hq⟩
      · intro h; rw [hd] at h; exact absurd h LoadEventsPaged.prev_ne_next
      · intro _ x c
        simp only [Cmp.test]
        rw [Bool.eq_iff_iff]
        simp only [decide_eq_true_eq, Bool.and_eq_true, Bool.not_eq_true', decide_eq_false_iff_not]
        exact ⟨fun h => ⟨le_of_lt h, fun he => absurd h (by rw [he]; exact lt_irrefl c)⟩,
          fun h => lt_of_le_of_ne h.1 h.2⟩

theorem query_other_direction {ι : Type} (f : Filter ι) (h1 : f.Pageable.Direction ≠ Next)
    (h2 : f.Pageable.Direction ≠ Prev) :
    LoadEventsPaged.query f =
      pageStatement (LoadEventsPaged.base f) (LoadEventsPaged.filterQuery f)
        (if f.Pageable.Order = SortDir.ASC then "<=" else ">=") "\t"
        f.Pageable.SortOrder f.Pageable.SortOrder := by
  unfold LoadEventsPaged.query LoadEventsPaged.baseQueryPagination LoadEventsPaged.preOrder
  rw [if_neg h1, if_neg h2]
  cases ho : f.Pageable.Order with
  | ASC =>
    have : f.Pageable.SortOrder = "ASC" := by unfold Pageable.SortOrder; rw [ho]
    rw [this]
    exact LoadEventsPaged.sprintf_backward_asc _ _ _ _
  | DESC =>
    have : f.Pageable.SortOrder = "DESC" := by unfold Pageable.SortOrder; rw [ho]
    rw [this]
    exact LoadEventsPaged.sprintf_backward_desc _ _ _ _

theorem query_shape {ι : Type} (f : Filter ι) :
    ∃ op indent pre,
      LoadEventsPaged.query f =
        pageStatement (LoadEventsPaged.base f) (LoadEventsPaged.filterQuery f) op indent pre
          f.Pageable.SortOrder ∧ (op = "<=" ∨ op = ">=") := by
  obtain ⟨t1, t2, t3, t4⟩ := query_truth_table f
  by_cases h1 : f.Pageable.Direction = Next
  · cases ho : f.Pageable.Order with
    | ASC =>
      have : f.Pageable.SortOrder = "ASC" := by unfold Pageable.SortOrder; rw [ho]
      exact ⟨_, _, _, by rw [this]; exact (t3 ho h1).1, Or.inr rfl⟩
    | DESC =>
      have : f.Pageable.SortOrder = "DESC" := by unfold Pageable.SortOrder; rw [ho]
      exact ⟨_, _, _, by rw [this]; exact (t1 ho h1).1, Or.inl rfl⟩
  · by_cases h2 : f.Pageable.Direction = Prev
    · cases ho : f.Pageable.Order with
      | ASC =>
        have : f.Pageable.SortOrder = "ASC" := by unfold Pageable.SortOrder; rw [ho]
        exact ⟨_, _, _, by rw [this]; exact (t4 ho h2).1, Or.inl rfl⟩
      | DESC =>
        have : f.Pageable.SortOrder = "DESC" := by unfold Pageable.SortOrder; rw [ho]
        exact ⟨_, _, _, by rw [this]; exact (t2 ho h2).1, Or.inr rfl⟩
    · refine ⟨_, _, _, query_other_direction f h1 h2, ?_⟩
      cases f.Pageable.Order <;> simp

theorem cq_shape {ι : Type} (f : Filter ι) :
    ∃ op,
      LoadEventsPaged.cq f =
        prevRowStatement (LoadEventsPaged.baseCountEvents f) (LoadEventsPaged.filterQuery f) op
          f.Pageable.SortOrder ∧ (op = "<" ∨ op = ">") := by
  cases ho : f.Pageable.Order with
  | ASC =>
    have : f.Pageable.SortOrder = "ASC" := by unfold Pageable.SortOrder; rw [ho]
    exact ⟨_, by rw [this]; exact cq_asc f ho, Or.inl rfl⟩
  | DESC =>
    have : f.Pageable.SortOrder = "DESC" := by unfold Pageable.SortOrder; rw [ho]
    exact ⟨_, by rw [this]; exact cq_desc f ho, Or.inr rfl⟩

set_option maxRecDepth 100000 in
theorem filterPart_contains :
    ∀ s e q : Bool,
      contains (filterPart s e q) baseEventFilter = true ∧
      contains (filterPart s e q) sourceFilter = s ∧
      contains (filterPart s e q) endpointFilter = e ∧
      contains (filterPart s e q) searchFilter = q := by
  intro s e q
  cases s <;> cases e <;> cases q <;> decide

set_option maxRecDepth 100000 in
theorem row_source_contains :
    contains baseEventsSearch "FROM convoy.events_search ev" = true ∧
      contains baseEventsPaged "FROM convoy.events_search ev" = false ∧
      contains baseCountPrevEventSearch "FROM convoy.events_search ev" = true ∧
      contains baseCountPrevEvents "FROM convoy.events_search ev" = false := by
  decide

theorem mergeEndpointID_nonempty {ι : Type} (f : Filter ι) :
    decide ((LoadEventsPaged.mergeEndpointID f).EndpointIDs.length > 0) =
      (decide (f.EndpointIDs.length > 0) || !IsStringEmpty f.EndpointID) := by
  rw [mergeEndpointID_EndpointIDs]
  cases h : IsStringEmpty f.EndpointID <;> simp

/-- C8 (amended): for every filter, sort order and direction, the page statement
and the previous-row statement `LoadEventsPaged` renders carry, between the
row source and the cursor bound, exactly the mandatory fragment followed by
the source-id predicate iff the source-id set is non-empty, the endpoint-id
predicate iff the endpoint-id set is non-empty or the single endpoint id of
the filter is non-empty (that id is appended to the set bound to the
statement), and the full-text predicate iff the search query is non-empty;
the row source is the search relation iff the search query is non-empty; the
operator rewritten for sort order ASC is the one of the cursor bound, outside
the filter part. -/
theorem filter_part_of_statements {ι : Type} (db : PageDb ι) (projectID : String)
    (f : Filter ι) :
    (∃ op indent pre,
      (LoadEventsPaged db projectID f).query =
        pageStatement
          (if (!IsStringEmpty f.Query) = true then baseEventsSearch else baseEventsPaged)
          (filterPart (decide (f.SourceIDs.length > 0))
            (decide (f.EndpointIDs.length > 0) || !IsStringEmpty f.EndpointID)
            (!IsStringEmpty f.Query))
          op indent pre f.Pageable.SortOrder ∧ (op = "<=" ∨ op = ">=")) ∧
    (∀ first rest,
      db.queryPage (LoadEventsPaged db projectID f).query (LoadEventsPaged db projectID f).args =
        .ok (first :: rest) →
      ∃ op,
        (LoadEventsPaged db projectID f).countQuery =
          some (prevRowStatement
            (if (!IsStringEmpty f.Query) = true then baseCountPrevEventSearch
              else baseCountPrevEvents)
            (filterPart (decide (f.SourceIDs.length > 0))
              (decide (f.EndpointIDs.length > 0) || !IsStringEmpty f.EndpointID)
              (!IsStringEmpty f.Query))
            op f.Pageable.SortOrder,
            { (LoadEventsPaged db projectID f).args with cursor := first.UID }) ∧
        (op = "<" ∨ op = ">")) ∧
    ((LoadEventsPaged db projectID f).args.source_ids = f.SourceIDs ∧
      (LoadEventsPaged db projectID f).args.query = f.Query ∧
      (LoadEventsPaged db projectID f).args.endpoint_ids =
        f.EndpointIDs ++ (if IsStringEmpty f.EndpointID = true then [] else [f.EndpointID])) ∧
    (∀ s e q : Bool,
      contains (filterPart s e q) baseEventFilter = true ∧
      contains (filterPart s e q) sourceFilter = s ∧
      contains (filterPart s e q) endpointFilter = e ∧
      contains (filterPart s e q) searchFilter = q) ∧
    (contains baseEventsSearch "FROM convoy.events_search ev" = true ∧
      contains baseEventsPaged "FROM convoy.events_search ev" = false ∧
      contains baseCountPrevEventSearch "FROM convoy.events_search ev" = true ∧
      contains baseCountPrevEvents "FROM convoy.events_search ev" = false) := by
  have hP := mergeEndpointID_Pageable f
  have hQ := mergeEndpointID_Query f
  have hS := mergeEndpointID_SourceIDs f
  have hfq : LoadEventsPaged.filterQuery (LoadEventsPaged.mergeEndpointID f) =
      filterPart (decide (f.SourceIDs.length > 0))
        (decide (f.EndpointIDs.length > 0) || !IsStringEmpty f.EndpointID)
        (!IsStringEmpty f.Query) := by
    rw [LoadEventsPaged.filterQuery_eq_filterPart, hS, hQ, mergeEndpointID_nonempty]
  refine ⟨?_, ?_, ⟨hS, hQ, mergeEndpointID_EndpointIDs f⟩, filterPart_contains,
    row_source_contains⟩
  · obtain ⟨op, indent, pre, h, hop⟩ := query_shape (LoadEventsPaged.mergeEndpointID f)
    rw [hfq, LoadEventsPaged.base_eq, hQ, hP] at h
    exact ⟨op, indent, pre, h, hop⟩
  · intro first rest hf
    obtain ⟨op, h, hop⟩ := cq_shape (LoadEventsPaged.mergeEndpointID f)
    rw [hfq, baseCountEvents_eq, hQ, hP] at h
    refine ⟨op, ?_, hop⟩
    rw [countQuery_fetched db projectID f first rest hf]
    exact congrArg (fun q => some (q, _)) h

set_option maxRecDepth 100000 in
/-- C8 (counterexample): for a filter with an empty endpoint-id set and the
single endpoint id `e1`, over a store with the row 0, the page statement and
the previous-row statement both carry the endpoint-id membership predicate. -/
theorem endpoint_predicate_with_empty_set :
    singleEndpointFilter.EndpointIDs = [] ∧
    contains (LoadEventsPaged (pg [sampleRow 0]) "p1" singleEndpointFilter).query
      endpointFilter = true ∧
    (LoadEventsPaged (pg [sampleRow 0]) "p1" singleEndpointFilter).countQuery.map
      (fun p => contains p.1 endpointFilter) = some true := by
  decide

/-! ## The count statement -/

set_option maxRecDepth 100000 in
theorem count_query_eq {ι : Type} (f : Filter ι) :
    CountEvents.query f =
      countEvents ++
        (if decide (f.EndpointIDs.length > 0) = true then " AND e.id IN (:endpoint_ids) " else "") ++
        (if (!IsStringEmpty f.SourceID) = true then " AND ev.source_id = :source_id " else "") := by
  unfold CountEvents.query
  by_cases h1 : f.EndpointIDs.length > 0 <;> cases h2 : IsStringEmpty f.SourceID <;>
    simp only [h1, if_true, if_false, Bool.not_true, Bool.not_false, Bool.false_eq_true,
      decide_True, decide_False] <;>
    decide

set_option maxRecDepth 100000 in
theorem count_statement_text (e s : Bool) :
    firstStatement (countEvents ++
        (if e = true then " AND e.id IN (:endpoint_ids) " else "") ++
        (if s = true then " AND ev.source_id = :source_id " else "")) =
      firstStatement countEvents := by
  cases e <;> cases s <;> decide

/-- The statement of every count query is the statement of `countEvents`:
what `CountEvents` appends comes after the `;` of `countEvents`. -/
theorem count_statement_fixed {ι : Type} (f : Filter ι) :
    firstStatement (CountEvents.query f) = firstStatement countEvents := by
  rw [count_query_eq]
  exact count_statement_text _ _

set_option maxRecDepth 100000 in
/-- The count query of a filter with source-id set `["s1"]` and idempotency
key `k1` is the bare `countEvents` text, which mentions neither a source id
nor an idempotency key, while the page statement of the same filter has both
predicates. -/
theorem count_query_lacks_source_set_and_key :
    sourceSetFilter.SourceIDs = ["s1"] ∧
    contains (LoadEventsPaged (pg []) "p1" sourceSetFilter).query sourceFilter = true ∧
    contains (LoadEventsPaged (pg []) "p1" sourceSetFilter).query
      "AND (ev.idempotency_key = :idempotency_key OR :idempotency_key = '')" = true ∧
    (CountEvents countsNothing "p1" sourceSetFilter).query = countEvents ∧
    contains (CountEvents countsNothing "p1" sourceSetFilter).query "source_id" = false ∧
    contains (CountEvents countsNothing "p1" sourceSetFilter).query "idempotency_key" = false := by
  decide

set_option maxRecDepth 100000 in
/-- C9 (defect of the code): for the filter with endpoint-id set `["e1"]`,
`CountEvents` renders `countEvents` followed by the endpoint-id membership
predicate.  `countEvents` ends its statement with `;`, so the statement of
the query is the bare count over tenant scope, creation-time range and
soft-delete exclusion, and the membership predicate, though in the query
text, comes after the terminator and is no part of the WHERE clause.  The
page statement of the same filter has no terminator and holds its membership
predicate.  For every filter the statement of the count query is that of
`countEvents`. -/
theorem count_predicates_follow_terminator :
    endpointSetFilter.EndpointIDs = ["e1"] ∧
    (CountEvents countsNothing "p1" endpointSetFilter).query =
      countEvents ++ " AND e.id IN (:endpoint_ids) " ∧
    firstStatement (CountEvents countsNothing "p1" endpointSetFilter).query =
      "\n\tSELECT COUNT(DISTINCT(ev.id)) FROM convoy.events ev\n\tLEFT JOIN convoy.events_endpoints ee ON ee.event_id = ev.id\n\tLEFT JOIN convoy.endpoints e ON ee.endpoint_id = e.id\n\tWHERE ev.project_id = :project_id\n\tAND ev.created_at >= :start_date AND ev.created_at <= :end_date AND ev.deleted_at IS NULL;" ∧
    contains (CountEvents countsNothing "p1" endpointSetFilter).query
      " AND e.id IN (:endpoint_ids) " = true ∧
    contains (firstStatement (CountEvents countsNothing "p1" endpointSetFilter).query)
      " AND e.id IN (:endpoint_ids) " = false ∧
    contains (firstStatement (CountEvents countsNothing "p1" endpointSetFilter).query)
      "endpoint_ids" = false ∧
    contains (LoadEventsPaged (pg []) "p1" endpointSetFilter).query ";" = false ∧
    contains (firstStatement (LoadEventsPaged (pg []) "p1" endpointSetFilter).query)
      endpointFilter = true ∧
    (∀ f : Filter Nat,
      firstStatement (CountEvents countsNothing "p1" f).query = firstStatement countEvents) :=
  ⟨by decide, by decide, by decide, by decide, by decide, by decide, by decide, by decide,
    fun f => count_statement_fixed f⟩

/-! ## The filter of the caller -/

/-- C10 (amended): `LoadEventsPaged` leaves every field of the filter of the
caller as it was except the endpoint-id set, to which it appends the single
endpoint id of the filter when that id is non-empty, whatever the database
answers; when the single endpoint id is empty the filter is unchanged and a
second call with the filter renders the same statement and arguments;
`CountEvents` leaves the filter unchanged. -/
theorem load_changes_only_endpoint_ids {ι : Type} (db : PageDb ι)
    (queryRow : String → CountArgs → Except Err Int) (projectID : String) (f : Filter ι) :
    (LoadEventsPaged db projectID f).filter =
      { f with EndpointIDs :=
          f.EndpointIDs ++ (if IsStringEmpty f.EndpointID = true then [] else [f.EndpointID]) } ∧
    (IsStringEmpty f.EndpointID = true →
      (LoadEventsPaged db projectID f).filter = f ∧
      (LoadEventsPaged db projectID (LoadEventsPaged db projectID f).filter).query =
        (LoadEventsPaged db projectID f).query ∧
      (LoadEventsPaged db projectID (LoadEventsPaged db projectID f).filter).args =
        (LoadEventsPaged db projectID f).args) ∧
    (CountEvents queryRow projectID f).filter = f := by
  have hm : IsStringEmpty f.EndpointID = true → LoadEventsPaged.mergeEndpointID f = f := by
    intro h
    unfold LoadEventsPaged.mergeEndpointID
    rw [h]
    rfl
  refine ⟨?_, ?_, rfl⟩
  · show LoadEventsPaged.mergeEndpointID f = _
    unfold LoadEventsPaged.mergeEndpointID
    cases IsStringEmpty f.EndpointID <;> simp
  · intro h
    have hf : (LoadEventsPaged db projectID f).filter = f := hm h
    refine ⟨hf, ?_, ?_⟩
    · rw [hf]
    · rw [hf]

set_option maxRecDepth 100000 in
/-- C10 (counterexample): a filter with an empty endpoint-id set and the
single endpoint id `e1` comes back from `LoadEventsPaged` with endpoint-id set
`["e1"]`; a second call with it binds `["e1", "e1"]` where the first bound
`["e1"]`, and `CountEvents` renders the endpoint-id predicate after the call
but not before. -/
theorem load_appends_single_endpoint_id :
    singleEndpointFilter.EndpointIDs = [] ∧
    (LoadEventsPaged (pg []) "p1" singleEndpointFilter).filter.EndpointIDs = ["e1"] ∧
    (LoadEventsPaged (pg []) "p1" singleEndpointFilter).args.endpoint_ids = ["e1"] ∧
    (LoadEventsPaged (pg []) "p1"
      (LoadEventsPaged (pg []) "p1" singleEndpointFilter).filter).args.endpoint_ids =
        ["e1", "e1"] ∧
    contains (CountEvents countsNothing "p1" singleEndpointFilter).query
      " AND e.id IN (:endpoint_ids) " = false ∧
    contains (CountEvents countsNothing "p1"
      (LoadEventsPaged (pg []) "p1" singleEndpointFilter).filter).query
      " AND e.id IN (:endpoint_ids) " = true := by
  decide

/-! ## Instances -/

set_option maxRecDepth 100000 in
/-- C7 (counterexample): with sort order desc, direction prev, per-page 20 and
cursor 100 over a store holding the rows 81 to 100, the returned page is the
row with id 100, which is not strictly greater than the cursor. -/
theorem prev_page_keeps_cursor_row :
    (sampleFilter Prev SortDir.DESC 100 20).Pageable.Cursor = 100 ∧
    (LoadEventsPaged (pg ((List.range' 81 20).map sampleRow)) "p1"
      (sampleFilter Prev SortDir.DESC 100 20)).outcome.eventIds = some [100] ∧
    ¬ ∀ ids,
      (LoadEventsPaged (pg ((List.range' 81 20).map sampleRow)) "p1"
        (sampleFilter Prev SortDir.DESC 100 20)).outcome.eventIds = some ids →
      ∀ id ∈ ids, (sampleFilter Prev SortDir.DESC 100 20).Pageable.Cursor < id := by
  have h : (LoadEventsPaged (pg ((List.range' 81 20).map sampleRow)) "p1"
      (sampleFilter Prev SortDir.DESC 100 20)).outcome.eventIds = some [100] := by decide
  refine ⟨rfl, h, ?_⟩
  intro hall
  have := hall [100] h 100 (List.mem_singleton.mpr rfl)
  exact absurd this (by decide)

set_option maxRecDepth 100000 in
/-- C6 (counterexample): with sort order desc and direction prev over the rows
100 and 105 and cursor 100, the page statement bounds `ev.id >= :cursor`, the
first fetched row is 105, and the previous-row statement asks for
`ev.id > 105`: a row with id 110 is asked for, and it lies on the side of 105
that the bound `>=` includes. -/
theorem prev_row_query_same_side_on_prev :
    cursorBoundOf (LoadEventsPaged (pg [sampleRow 100, sampleRow 105]) "p1"
      (sampleFilter Prev SortDir.DESC 100 20)).query = some Cmp.ge ∧
    (LoadEventsPaged (pg [sampleRow 100, sampleRow 105]) "p1"
      (sampleFilter Prev SortDir.DESC 100 20)).countQuery.map
        (fun p => (cursorBoundOf p.1, p.2.cursor)) = some (some Cmp.gt, 105) ∧
    Cmp.gt.test (110 : Nat) 105 = true ∧ Cmp.ge.test (110 : Nat) 105 = true := by
  decide

/-- C2 (witness): the three endpoints of the sample event go out in one
association statement. -/
theorem chunking_partitions_endpoints_witness :
    okEnv.exec = none ∧
    (issuedChunks (CreateEvent (.ok false) okEnv sampleEvent).2.calls).length =
      (sampleEvent.Endpoints.length + PartitionSize - 1) / PartitionSize ∧
    (issuedChunks (CreateEvent (.ok false) okEnv sampleEvent).2.calls).flatten.map
      EventEndpoint.EndpointID = sampleEvent.Endpoints :=
  ⟨rfl,
    (chunking_partitions_endpoints false okEnv sampleEvent [] sampleEvent.Endpoints
      (CreateEvent (.ok false) okEnv sampleEvent).2 rfl (fun _ => rfl) (Or.inl ⟨rfl, rfl⟩)).1,
    (chunking_partitions_endpoints false okEnv sampleEvent [] sampleEvent.Endpoints
      (CreateEvent (.ok false) okEnv sampleEvent).2 rfl (fun _ => rfl) (Or.inl ⟨rfl, rfl⟩)).2.2.1⟩

/-- C3 (witness): on a transaction of its own whose association statement
fails, `CreateEvent` ends with Rollback and does not commit. -/
theorem writer_commit_rollback_ownership_witness :
    (CreateEvent (.ok false) failingEnv sampleEvent).2.calls.getLast? = some TxCall.Rollback ∧
    (TxCall.Commit ∈ (CreateEvent (.ok false) failingEnv sampleEvent).2.calls ↔
      (failingEnv.exec = none ∧
        ∀ k, k < (sampleEvent.Endpoints.length + PartitionSize - 1) / PartitionSize →
          failingEnv.namedExec k = none)) :=
  ⟨((writer_commit_rollback_ownership false failingEnv sampleEvent [] sampleEvent.Endpoints
      (CreateEvent (.ok false) failingEnv sampleEvent).2 (Or.inl ⟨rfl, rfl⟩)).2 rfl).2.2,
    ((writer_commit_rollback_ownership false failingEnv sampleEvent [] sampleEvent.Endpoints
      (CreateEvent (.ok false) failingEnv sampleEvent).2 (Or.inl ⟨rfl, rfl⟩)).2 rfl).1⟩

/-- C5 (witness): when the first association statement of `UpdateEventEndpoints`
fails, the call returns that error after one association statement and
without a commit. -/
theorem writer_failure_aborts_witness :
    (UpdateEventEndpoints (.ok false) failingEnv sampleEvent ["e4", "e5"]).err =
      some "deadlock detected" ∧
    (issuedChunks
      (UpdateEventEndpoints (.ok false) failingEnv sampleEvent ["e4", "e5"]).calls).length = 1 ∧
    TxCall.Commit ∉ (UpdateEventEndpoints (.ok false) failingEnv sampleEvent ["e4", "e5"]).calls :=
  have h := (writer_failure_aborts false failingEnv sampleEvent ["e4", "e5"] ["e4", "e5"]
    (UpdateEventEndpoints (.ok false) failingEnv sampleEvent ["e4", "e5"]) "deadlock detected"
    (Or.inr ⟨rfl, rfl⟩)).2 0 rfl (by decide) (fun _ hm => absurd hm (Nat.not_lt_zero _)) rfl
  ⟨h.1, h.2.2.1, h.2.2.2.1⟩

set_option maxRecDepth 100000 in
/-- C4 (witness): with per-page 2 over the rows 98 to 101 and cursor 100, three
rows are fetched and two are returned. -/
theorem page_within_per_page_witness :
    (0 : Int) ≤ (sampleFilter Next SortDir.DESC 100 2).Pageable.PerPage ∧
    (LoadEventsPaged (pg [sampleRow 98, sampleRow 99, sampleRow 100, sampleRow 101]) "p1"
      (sampleFilter Next SortDir.DESC 100 2)).outcome.eventIds = some [100, 99] ∧
    (samplePage.events.length : Int) ≤ (sampleFilter Next SortDir.DESC 100 2).Pageable.PerPage :=
  ⟨by decide, by decide,
    (page_within_per_page (pg [sampleRow 98, sampleRow 99, sampleRow 100, sampleRow 101]) "p1"
      (sampleFilter Next SortDir.DESC 100 2) samplePage (by decide)
      (fun q a rows h => pg_respects_limit _ q a rows h) rfl).2.1⟩

set_option maxRecDepth 100000 in
/-- C7 (witness): with sort order desc, direction prev, per-page 2 and cursor
100 over the rows 99 to 103, the page holds the rows 102 and 101. -/
theorem prev_page_desc_within_cursor_witness :
    (LoadEventsPaged (pg [sampleRow 100, sampleRow 101, sampleRow 99, sampleRow 102, sampleRow 103])
      "p1" (sampleFilter Prev SortDir.DESC 100 2)).outcome.eventIds = some [102, 101] ∧
    ((∀ e ∈ samplePrevPage.events,
        (sampleFilter Prev SortDir.DESC 100 2).Pageable.Cursor ≤ e.UID ∧
          e ∈ [sampleRow 100, sampleRow 101, sampleRow 99, sampleRow 102, sampleRow 103]) ∧
      samplePrevPage.events.Pairwise (fun a b => b.UID ≤ a.UID)) :=
  ⟨by decide,
    prev_page_desc_within_cursor
      [sampleRow 100, sampleRow 101, sampleRow 99, sampleRow 102, sampleRow 103] "p1"
      (sampleFilter Prev SortDir.DESC 100 2) samplePrevPage rfl rfl rfl⟩

set_option maxRecDepth 100000 in
/-- C6 (witness): with sort order desc and direction prev over the rows 100 and
105, the previous-row statement is sent with cursor 105 and bound
`ev.id > :cursor`. -/
theorem prev_row_query_follows_sort_order_witness :
    ∃ q,
      (LoadEventsPaged (pg [sampleRow 100, sampleRow 105]) "p1"
        (sampleFilter Prev SortDir.DESC 100 20)).countQuery =
        some (q, { (LoadEventsPaged (pg [sampleRow 100, sampleRow 105]) "p1"
          (sampleFilter Prev SortDir.DESC 100 20)).args with cursor := 105 }) ∧
      cursorBoundOf q = some Cmp.gt := by
  obtain ⟨q, m, p, h1, _, h3, h4, _⟩ :=
    prev_row_query_follows_sort_order (pg [sampleRow 100, sampleRow 105]) "p1"
      (sampleFilter Prev SortDir.DESC 100 20) (sampleRow 105) [sampleRow 100] (Or.inr rfl) rfl
  exact ⟨q, h1, (h4 rfl).1 ▸ h3⟩


end Convoy
